import Mathlib

/-
  Verification development for the mod_proxy_cluster manager module
  (mod_manager): a shallow embedding of the MCMP receiver, the shared
  node/host/context/balancer registry and the CONFIG / *-APP command
  processors, together with theorems about the specified properties.

  The embedding translates the C source of mod_manager.  The slotmem table
  primitives (node.c, host.c, context.c, balancer.c) are not part of the
  provided sources; their definitions below are modelled from the spec
  (section 4.2: per-table allocate-slot / read-by-id / find-by-key /
  update-in-place / remove-by-id / enumerate-used-ids / max-size) and from
  the declarations in node.h.  Everything else is translated directly from
  mod_manager.c.

  Machine details that are modelled: the 64-bit version counter wraps at
  2 to the 64; C ints are modelled as unbounded Int (no claim exercises int
  overflow); C strings are Lean Strings (ASCII in all uses exercised here).
  The colocated proxy_worker_shared stats blob of a node row (copied via a
  computed offset in process_config) is memory layout and is not modelled;
  the clean flag is kept as an argument but has no modelled effect.
-/

/-- ASCII lower-casing of one character, as apr_tolower does for the ASCII
range used by the module. -/
def apr_tolower (c : Char) : Char :=
  if 'A' ≤ c && c ≤ 'Z' then Char.ofNat (c.toNat + 32) else c

/-- Lower-case a whole string (used by normalize_balancer_name and by the
alias lower-casing loop in process_appl_cmd). -/
def lowerStr (s : String) : String :=
  String.mk (s.data.map apr_tolower)

/-- Case-insensitive string comparison, as strcasecmp == 0. -/
def strcaseeq (a b : String) : Bool :=
  lowerStr a == lowerStr b

/-- C atoi on the digit prefix: optional sign then leading decimal digits
(whitespace skipping is irrelevant for MCMP tokens). -/
def atoiDigits : List Char → Int → Int
  | [], acc => acc
  | c :: rest, acc =>
    if c.isDigit then atoiDigits rest (acc * 10 + ((c.toNat : Int) - 48))
    else acc

/-- C atoi. -/
def atoi (s : String) : Int :=
  match s.data with
  | '-' :: rest => - atoiDigits rest 0
  | '+' :: rest => atoiDigits rest 0
  | l => atoiDigits l 0

/-- Microseconds per second: apr_time_from_sec n = n * 10^6. -/
def apr_time_from_sec (n : Int) : Int := n * 1000000

/- Fixed-width field capacities.  Modelled from the spec (section 3: all
sizes are fixed-width text fields; mod_clustersize.h is not among the
provided sources).  The concrete numbers follow the mod_cluster defaults;
no theorem below depends on their exact values. -/

def BALANCERSZ : Nat := 40
def JVMROUTESZ : Nat := 96
def DOMAINNDSZ : Nat := 20
def HOSTNODESZ : Nat := 64
def PORTNODESZ : Nat := 7
def SCHEMENDSZ : Nat := 16
def AJPSECRETSZ : Nat := 64
def HOSTALIASZ : Nat := 255
def CONTEXTSZ : Nat := 80
def COOKNAMESZ : Nat := 30
def PATHNAMESZ : Nat := 30

/-- Truncate a string to a capacity (effect of strncpy into a fixed field). -/
def strTrunc (n : Nat) (s : String) : String :=
  String.mk (s.data.take n)

/- Context lifecycle status codes.  Modelled from the spec and the comment
on context_status_to_string in mod_manager.c: the macros live in context.h
(not among the provided sources) and take the integer values 1..4. -/

def ENABLED : Int := 1
def DISABLED : Int := 2
def STOPPED : Int := 3
def REMOVE : Int := 4

/- Proxy flush-packets policy (enum flush_packets in proxy.h). -/

def flush_off : Int := 0
def flush_on : Int := 1
def flush_auto : Int := 2

/-- Default flush wait (PROXY_FLUSH_WAIT, microseconds). -/
def PROXY_FLUSH_WAIT : Int := 10000

/- Error types and the catalogued error messages of mod_manager.c.
The %s place-holders of the C macros are kept verbatim; the apr_psprintf
formatting is presentation and is not modelled. -/

def TYPESYNTAX : Int := 1
def TYPEMEM : Int := 2

def SMESPAR : String := "SYNTAX: Cannot parse MCMP message. It might have contained illegal symbols or unknown elements."
def SBALBIG : String := "SYNTAX: Balancer field too big"
def SBAFBIG : String := "SYNTAX: A field is too big"
def SROUBIG : String := "SYNTAX: JVMRoute field too big"
def SROUBAD : String := "SYNTAX: JVMRoute cannot be empty"
def SDOMBIG : String := "SYNTAX: LBGroup field too big"
def SHOSBIG : String := "SYNTAX: Host field too big"
def SPORBIG : String := "SYNTAX: Port field too big"
def STYPBIG : String := "SYNTAX: Type field too big"
def SALIBAD : String := "SYNTAX: Alias without Context"
def SCONBAD : String := "SYNTAX: Context without Alias"
def SBADFLD : String := "SYNTAX: Invalid field %s in message"
def SMISFLD : String := "SYNTAX: Mandatory field(s) missing in message"
def SCMDUNS : String := "SYNTAX: Command is not supported"
def SMULALB : String := "SYNTAX: Only one Alias in APP command"
def SMULCTB : String := "SYNTAX: Only one Context in APP command"

def MNODEUI : String := "MEM: Cannot update or insert node with %s JVMRoute"
def MNODERM : String := "MEM: Old node with %s JVMRoute still exists"
def MBALAUI : String := "MEM: Cannot update or insert balancer for node with %s JVMRoute"
def MNODERD : String := "MEM: Cannot read node with %s JVMRoute"
def MHOSTRD : String := "MEM: Cannot read host alias for node with %s JVMRoute"
def MHOSTUI : String := "MEM: Cannot update or insert host alias for node with %s JVMRoute"
def MCONTUI : String := "MEM: Cannot update or insert context for node with %s JVMRoute"
def MNODEET : String := "MEM: Another for the same worker already exist"

/-- Outcome of one MCMP command, as seen by manager_handler: success (HTTP
200), an error (HTTP 500 with errtype 1 = SYNTAX, 2 = MEM, anything else
reported as GENERAL) carrying the message, or crash, which models C
undefined behaviour (reading past the token array / dereferencing a NULL
value pointer). -/
inductive MCResult where
  | ok : MCResult
  | err : Int → String → MCResult
  | crash : MCResult
deriving DecidableEq, Repr

/-- Configuration of the node received from the cluster (struct nodemess in
node.h).  The Type field is named Typ because Type is reserved in Lean.
The httpd-side load-balancing bookkeeping fields (updatetimelb,
num_failure_idle, oldelected, oldread, lastcleantry) are never read by the
command processors and are omitted. -/
structure nodemess_t where
  id : Int
  balancer : String
  JVMRoute : String
  Domain : String
  Host : String
  Port : String
  Typ : String
  Upgrade : String
  AJPSecret : String
  reversed : Int
  remove : Int
  ResponseFieldSize : Int
  flushpackets : Int
  flushwait : Int
  ping : Int
  smax : Int
  ttl : Int
  timeout : Int
  num_remove_check : Int
deriving DecidableEq, Repr

/-- Node row as stored in shared memory (struct nodeinfo in node.h); the
stat blob and its offset are memory layout and are not modelled. -/
structure nodeinfo_t where
  mess : nodemess_t
  updatetime : Int
deriving DecidableEq, Repr

/-- Host (virtual-host alias) row (hostinfo_t in host.h). -/
structure hostinfo_t where
  id : Int
  host : String
  vhost : Int
  node : Int
deriving DecidableEq, Repr

/-- Context row (contextinfo_t in context.h). -/
structure contextinfo_t where
  id : Int
  context : String
  vhost : Int
  node : Int
  status : Int
  nbrequests : Int
deriving DecidableEq, Repr

/-- Balancer row (balancerinfo_t in balancer.h). -/
structure balancerinfo_t where
  id : Int
  balancer : String
  StickySession : Int
  StickySessionCookie : String
  StickySessionPath : String
  StickySessionRemove : Int
  StickySessionForce : Int
  Timeout : Int
  Maxattempts : Int
deriving DecidableEq, Repr

/-- The shared registry: the four tables the MCMP commands touch, the
64-bit version counter, and the configured capacities.  The list order of
each table is the enumeration order of get_ids_used (the slot-scan order).
The balancer table is created with the maxhost capacity in manager_init. -/
structure MState where
  nodes : List nodeinfo_t
  hosts : List hostinfo_t
  contexts : List contextinfo_t
  balancers : List balancerinfo_t
  version : Nat
  maxnode : Nat
  maxhost : Nat
  maxcontext : Nat
deriving DecidableEq, Repr

/-- Increase the version of the nodes table (inc_version_node); the counter
is an apr_uint64_t and wraps at 2 to the 64. -/
def inc_version_node (s : MState) : MState :=
  { s with version := (s.version + 1) % 2 ^ 64 }

/- Table primitives.  These are modelled from the spec (section 4.2) and
node.h: the slotmem-backed implementations are not among the provided
sources. -/

/-- Modelled from the spec: find a node record by JVMRoute (find_node /
read_node with mess.id = -1); first match in slot-scan order. -/
def read_node_route (nodes : List nodeinfo_t) (route : String) : Option nodeinfo_t :=
  nodes.find? (fun n => n.mess.JVMRoute == route)

/-- Modelled from the spec: read a node record by slot id (get_node /
read_node with mess.id set). -/
def read_node_id (nodes : List nodeinfo_t) (id : Int) : Option nodeinfo_t :=
  nodes.find? (fun n => n.mess.id == id)

/-- Modelled from the spec: find a node record by Host/Port
(find_node_byhostport); first match in slot-scan order. -/
def find_node_byhostport (nodes : List nodeinfo_t) (host port : String) : Option nodeinfo_t :=
  nodes.find? (fun n => n.mess.Host == host && n.mess.Port == port)

/-- Smallest free slot id (1-based) of a table with the given capacity. -/
def free_slot_id (used : List Int) (cap : Nat) : Option Int :=
  ((List.range cap).map (fun n => (n : Int) + 1)).find? (fun i => !(used.contains i))

/-- Update the node row carrying the given slot id in place (pointer writes
into the shared table and update-in-place both act on that slot). -/
def update_node_row (nodes : List nodeinfo_t) (id : Int) (f : nodeinfo_t → nodeinfo_t) :
    List nodeinfo_t :=
  nodes.map (fun n => if n.mess.id == id then f n else n)

/-- Modelled from the spec: insert_update_node.  If id = -1, allocate a free
slot (memory-kind error when the table is full); otherwise update slot id in
place, claiming the slot if it is empty.  The clean flag only zeroes the
colocated stats blob, which is not modelled.  Returns the new table and the
slot id used. -/
def insert_update_node (nodes : List nodeinfo_t) (maxnode : Nat) (node : nodeinfo_t)
    (id : Int) (clean : Bool) : Option (List nodeinfo_t × Int) :=
  let _ := clean
  if id == -1 then
    match free_slot_id (nodes.map (fun n => n.mess.id)) maxnode with
    | none => none
    | some i => some (nodes ++ [{ node with mess := { node.mess with id := i } }], i)
  else
    if nodes.any (fun n => n.mess.id == id) then
      some (update_node_row nodes id (fun _ => { node with mess := { node.mess with id := id } }), id)
    else
      if nodes.length < maxnode then
        some (nodes ++ [{ node with mess := { node.mess with id := id } }], id)
      else none

/-- Modelled from the spec: read a host row by its key fields as set by
process_appl_cmd (owning node and alias string). -/
def read_host (hosts : List hostinfo_t) (node : Int) (hostname : String) : Option hostinfo_t :=
  hosts.find? (fun h => h.node == node && h.host == hostname)

/-- Modelled from the spec: insert_update_host keyed on
(node-id, vhost-id, alias); allocates a slot for a new key, memory-kind
error when the table is full. -/
def insert_update_host (hosts : List hostinfo_t) (maxhost : Nat) (info : hostinfo_t) :
    Option (List hostinfo_t) :=
  if hosts.any (fun h => h.node == info.node && h.vhost == info.vhost && h.host == info.host) then
    some hosts
  else
    match free_slot_id (hosts.map (fun h => h.id)) maxhost with
    | none => none
    | some i => some (hosts ++ [{ info with id := i }])

/-- Modelled from the spec: read a context row by its key
(node-id, vhost-id, path). -/
def read_context (contexts : List contextinfo_t) (node vhost : Int) (path : String) :
    Option contextinfo_t :=
  contexts.find? (fun c => c.node == node && c.vhost == vhost && c.context == path)

/-- Modelled from the spec: insert_update_context keyed on
(node-id, vhost-id, path); an update rewrites the status in place keeping the
request counter, an insert allocates a slot (memory-kind error when full). -/
def insert_update_context (contexts : List contextinfo_t) (maxcontext : Nat)
    (info : contextinfo_t) : Option (List contextinfo_t) :=
  if contexts.any (fun c => c.node == info.node && c.vhost == info.vhost && c.context == info.context) then
    some (contexts.map (fun c =>
      if c.node == info.node && c.vhost == info.vhost && c.context == info.context then
        { c with status := info.status }
      else c))
  else
    match free_slot_id (contexts.map (fun c => c.id)) maxcontext with
    | none => none
    | some i => some (contexts ++ [{ info with id := i, nbrequests := 0 }])

/-- Modelled from the spec: remove a context row by slot id. -/
def remove_context (contexts : List contextinfo_t) (id : Int) : List contextinfo_t :=
  contexts.filter (fun c => !(c.id == id))

/-- Modelled from the spec: remove a host row by slot id. -/
def remove_host (hosts : List hostinfo_t) (id : Int) : List hostinfo_t :=
  hosts.filter (fun h => !(h.id == id))

/-- Modelled from the spec: insert_update_balancer keyed on the balancer
name; allocates a slot for a new name, memory-kind error when full. -/
def insert_update_balancer (bals : List balancerinfo_t) (maxbal : Nat)
    (b : balancerinfo_t) : Option (List balancerinfo_t) :=
  if bals.any (fun x => x.balancer == b.balancer) then
    some (bals.map (fun x => if x.balancer == b.balancer then { b with id := x.id } else x))
  else
    match free_slot_id (bals.map (fun x => x.id)) maxbal with
    | none => none
    | some i => some (bals ++ [{ b with id := i }])

/- The MCMP parser: process_buff, decodeenc and mod_manager_hex2c,
translated from mod_manager.c. -/

/-- Hex-digit test, as apr_isxdigit. -/
def apr_isxdigit (c : Char) : Bool :=
  ('0' ≤ c && c ≤ '9') || ('a' ≤ c && c ≤ 'f') || ('A' ≤ c && c ≤ 'F')

/-- Value of one hex digit, following the three branches of
mod_manager_hex2c. -/
def hexDigitVal (c : Char) : Nat :=
  if '0' ≤ c && c ≤ '9' then c.toNat - 48
  else if 'A' ≤ c && c ≤ 'Z' then c.toNat - 55
  else c.toNat - 87

/-- Decode a two-hex-digit escape to one octet (mod_manager_hex2c). -/
def mod_manager_hex2c (a b : Char) : Char :=
  Char.ofNat ((16 * hexDigitVal a + hexDigitVal b) % 256)

/-- Characters whose decoded presence makes decodeenc fail: the
apr_escape_entity set and CR/LF from the apr_escape_shell set. -/
def bad_decode_char (c : Char) : Bool :=
  c == '<' || c == '>' || c == Char.ofNat 34 || c == Char.ofNat 39 ||
  c == Char.ofNat 13 || c == Char.ofNat 10

/-- Test of decodeenc for a percent escape: the next two characters exist
and are hex digits. -/
def hex_escape_follows (rest : List Char) : Bool :=
  match rest with
  | a :: b :: _ => apr_isxdigit a && apr_isxdigit b
  | _ => false

/-- In-place percent-decoding of one token, with the forbidden-character
check of decodeenc: a percent followed by two hex digits becomes one octet,
any other character is copied; none is the TYPESYNTAX failure.  The inner
match arm returning none under a true hex_escape_follows guard is
unreachable. -/
def decode_token : List Char → Option (List Char)
  | [] => some []
  | c :: rest =>
    if c == '%' && hex_escape_follows rest then
      match rest with
      | a :: b :: rest2 =>
        let ch := mod_manager_hex2c a b
        if bad_decode_char ch then none
        else (decode_token rest2).map (fun t => ch :: t)
      | _ => none
    else
      if bad_decode_char c then none
      else (decode_token rest).map (fun t => c :: t)

/-- Percent-decoding without the failure check: the full decoded text of a
token (used to state what decodeenc rejects). -/
def decode_all : List Char → List Char
  | [] => []
  | c :: rest =>
    if c == '%' && hex_escape_follows rest then
      match rest with
      | a :: b :: rest2 => mod_manager_hex2c a b :: decode_all rest2
      | _ => []
    else c :: decode_all rest

/-- Processing of decoded characters (decodeenc): walk the token array; an
empty token returns success immediately, leaving the remaining tokens
untouched; otherwise each token is decoded in place and a forbidden decoded
character fails the whole request. -/
def decodeenc : List String → Option (List String)
  | [] => some []
  | t :: ts =>
    if t == "" then some (t :: ts)
    else
      match decode_token t.data with
      | none => none
      | some d => (decodeenc ts).map (fun r => String.mk d :: r)

/-- Token split of process_buff: the body is cut at every occurrence of the
two separators, empty pieces included. -/
def split_tokens (l : List Char) : List (List Char) :=
  l.foldr
    (fun c acc =>
      if c == '&' || c == '=' then [] :: acc
      else
        match acc with
        | [] => [[c]]
        | t :: ts => (c :: t) :: ts)
    [[]]

/-- Token list of a request body, before decoding. -/
def tokenize (body : String) : List String :=
  (split_tokens body.data).map String.mk

/-- Parse an MCMP body into its token sequence (process_buff): split at the
separators, then decodeenc; none is the SYNTAX failure reported with
SMESPAR. -/
def process_buff (body : String) : Option (List String) :=
  decodeenc (tokenize body)

/- The module configuration fields consulted by the command processors. -/

/-- Subset of mod_manager_config read by process_config. -/
structure mod_manager_config where
  balancername : Option String
  enable_ws_tunnel : Bool
  ws_upgrade_header : Option String
  ajp_secret : Option String
  response_field_size : Int
deriving DecidableEq, Repr

/-- The worker reconciler (mod_proxy_cluster), an external collaborator:
proxy_node_getid locates an existing proxy worker for the request's
(balancer, scheme, host, port) and returns its node-slot id;
proxy_node_get_free_id allocates a slot index honouring the node table
size.  Both return none when no balancer handler is registered or nothing
is found (the C functions then yield NULL / -1). -/
structure Reconciler where
  getid : nodemess_t → Option Int
  free_id : Nat → Option Int

/- CONFIG processing, translated from process_config and its helpers. -/

/-- Helper record for the Alias/Context pairing (struct cluster_host). -/
structure cluster_host where
  host : Option String
  context : Option String
deriving DecidableEq, Repr

/-- Default balancer values (process_config_balancer_defaults). -/
def process_config_balancer_defaults (mconf : mod_manager_config) : balancerinfo_t :=
  { id := 0
    balancer := match mconf.balancername with
                | some name => strTrunc (BALANCERSZ - 1) (lowerStr name)
                | none => "mycluster"
    StickySession := 1
    StickySessionCookie := "JSESSIONID"
    StickySessionPath := "jsessionid"
    StickySessionRemove := 0
    StickySessionForce := 1
    Timeout := 0
    Maxattempts := 1 }

/-- Default node values (process_config_node_defaults). -/
def process_config_node_defaults (mconf : mod_manager_config) : nodemess_t :=
  { id := -1
    balancer := match mconf.balancername with
                | some name => strTrunc (BALANCERSZ - 1) (lowerStr name)
                | none => "mycluster"
    JVMRoute := ""
    Domain := ""
    Host := "localhost"
    Port := "8009"
    Typ := "ajp"
    Upgrade := ""
    AJPSecret := ""
    reversed := 0
    remove := 0
    ResponseFieldSize := 0
    flushpackets := flush_off
    flushwait := PROXY_FLUSH_WAIT
    ping := apr_time_from_sec 10
    smax := -1
    ttl := apr_time_from_sec 60
    timeout := 0
    num_remove_check := 0 }

/-- Strip an IPv6 %zone suffix from a bracketed address, reproducing the
read/write pointer loop of the Host branch of process_config_node. -/
def strip_zone_loop : List Char → Bool → List Char
  | [], _ => []
  | c :: rest, flag =>
    if (c == '%' || flag) && !(c == ']') then strip_zone_loop rest true
    else c :: strip_zone_loop rest flag

/-- Apply the zone stripping only to values starting with a bracket. -/
def strip_ipv6_zone (s : String) : String :=
  match s.data with
  | '[' :: _ => String.mk (strip_zone_loop s.data false)
  | _ => s

/-- Balancer part of one CONFIG key/value pair (process_config_balancer):
returns the updated balancer row and node message, or errtype and message. -/
def process_config_balancer (key val : String) (bal : balancerinfo_t)
    (mess : nodemess_t) : Except (Int × String) (balancerinfo_t × nodemess_t) :=
  if strcaseeq key "Balancer" then
    if val.length ≥ BALANCERSZ then .error (TYPESYNTAX, SBALBIG)
    else
      let v := lowerStr val
      .ok ({ bal with balancer := v }, { mess with balancer := v })
  else if strcaseeq key "StickySession" then
    .ok (if strcaseeq val "no" then { bal with StickySession := 0 } else bal, mess)
  else if strcaseeq key "StickySessionCookie" then
    if val.length ≥ COOKNAMESZ then .error (TYPESYNTAX, SBAFBIG)
    else .ok ({ bal with StickySessionCookie := val }, mess)
  else if strcaseeq key "StickySessionPath" then
    if val.length ≥ PATHNAMESZ then .error (TYPESYNTAX, SBAFBIG)
    else .ok ({ bal with StickySessionPath := val }, mess)
  else if strcaseeq key "StickySessionRemove" then
    .ok (if strcaseeq val "yes" then { bal with StickySessionRemove := 1 } else bal, mess)
  else if strcaseeq key "StickySessionForce" then
    .ok (if strcaseeq val "no" then { bal with StickySessionForce := 0 } else bal, mess)
  else if strcaseeq key "WaitWorker" then
    .ok ({ bal with Timeout := apr_time_from_sec (atoi val) }, mess)
  else if strcaseeq key "Maxattempts" then
    .ok ({ bal with Maxattempts := atoi val }, mess)
  else .ok (bal, mess)

/-- Node part of one CONFIG key/value pair (process_config_node). -/
def process_config_node (key val : String) (mess : nodemess_t) :
    Except (Int × String) nodemess_t :=
  if strcaseeq key "JVMRoute" then
    if val.length ≥ JVMROUTESZ then .error (TYPESYNTAX, SROUBIG)
    else .ok { mess with JVMRoute := val }
  else if strcaseeq key "Domain" then
    if val.length ≥ DOMAINNDSZ then .error (TYPESYNTAX, SDOMBIG)
    else .ok { mess with Domain := val }
  else if strcaseeq key "Host" then
    if val.length ≥ HOSTNODESZ then .error (TYPESYNTAX, SHOSBIG)
    else .ok { mess with Host := strip_ipv6_zone val }
  else if strcaseeq key "Port" then
    if val.length ≥ PORTNODESZ then .error (TYPESYNTAX, SPORBIG)
    else .ok { mess with Port := val }
  else if strcaseeq key "Type" then
    if val.length ≥ SCHEMENDSZ then .error (TYPESYNTAX, STYPBIG)
    else .ok { mess with Typ := val }
  else if strcaseeq key "Reversed" then
    .ok (if strcaseeq val "yes" then { mess with reversed := 1 } else mess)
  else if strcaseeq key "flushpackets" then
    .ok (if strcaseeq val "on" then { mess with flushpackets := flush_on }
         else if strcaseeq val "auto" then { mess with flushpackets := flush_auto }
         else mess)
  else if strcaseeq key "flushwait" then
    .ok { mess with flushwait := atoi val * 1000 }
  else if strcaseeq key "ping" then
    .ok { mess with ping := apr_time_from_sec (atoi val) }
  else if strcaseeq key "smax" then
    .ok { mess with smax := atoi val }
  else if strcaseeq key "ttl" then
    .ok { mess with ttl := apr_time_from_sec (atoi val) }
  else if strcaseeq key "Timeout" then
    .ok { mess with timeout := apr_time_from_sec (atoi val) }
  else .ok mess

/-- The key/value walk of process_config: both field processors are applied
to every pair, then the Alias/Context pairing is maintained on a growing
cluster_host list (kept reversed, head = current).  A trailing key without a
value makes the C loop read the NULL sentinel and walk past the token
array: crash. -/
def config_parse_loop : List String → balancerinfo_t → nodemess_t → List cluster_host →
    Except MCResult (balancerinfo_t × nodemess_t × List cluster_host)
  | [], bal, mess, vhosts => .ok (bal, mess, vhosts.reverse)
  | [_], _, _, _ => .error .crash
  | key :: val :: rest, bal, mess, vhosts =>
    match process_config_balancer key val bal mess with
    | .error (t, m) => .error (.err t m)
    | .ok (bal, mess) =>
      match process_config_node key val mess with
      | .error (t, m) => .error (.err t m)
      | .ok mess =>
        let cur := vhosts.headD { host := none, context := none }
        let tail := vhosts.tailD []
        if strcaseeq key "Alias" then
          if cur.host.isSome && !cur.context.isSome then
            .error (.err TYPESYNTAX SALIBAD)
          else if cur.host.isSome then
            config_parse_loop rest bal mess
              ({ host := some val, context := none } :: cur :: tail)
          else
            config_parse_loop rest bal mess ({ cur with host := some val } :: tail)
        else if strcaseeq key "Context" then
          if cur.context.isSome then
            .error (.err TYPESYNTAX SCONBAD)
          else
            config_parse_loop rest bal mess ({ cur with context := some val } :: tail)
        else
          config_parse_loop rest bal mess (cur :: tail)

/-- Post-parse checks and configuration-driven rewrites of process_config:
mandatory JVMRoute, WebSocket tunnelling rewrite of the scheme, AJP secret
copy and response field size. -/
def process_config_checks (mconf : mod_manager_config) (mess : nodemess_t) :
    Except MCResult nodemess_t :=
  if mess.JVMRoute == "" then .error (.err TYPESYNTAX SROUBAD)
  else
    let mess :=
      if mconf.enable_ws_tunnel && !(mess.Typ == "ajp") then
        let mess := if mess.Typ == "http" then { mess with Typ := "ws" } else mess
        let mess := if mess.Typ == "https" then { mess with Typ := "wss" } else mess
        { mess with Upgrade := match mconf.ws_upgrade_header with
                               | some h => strTrunc (SCHEMENDSZ - 1) h
                               | none => "websocket" }
      else mess
    let mess :=
      if mess.Typ == "ajp" then
        match mconf.ajp_secret with
        | some sec => { mess with AJPSecret := strTrunc (AJPSECRETSZ - 1) sec }
        | none => mess
      else mess
    let mess :=
      if !(mconf.response_field_size == 0) && !(mess.Typ == "ajp") then
        { mess with ResponseFieldSize := mconf.response_field_size }
      else mess
    .ok mess

/-- Check that the node could be handled as if it were the same
(is_same_node): worker identity is the tuple (balancer, Host, Port, Type,
reversed, smax, ttl). -/
def is_same_node (nodeinfo node : nodemess_t) : Bool :=
  nodeinfo.balancer == node.balancer &&
  nodeinfo.Host == node.Host &&
  nodeinfo.Port == node.Port &&
  nodeinfo.Typ == node.Typ &&
  nodeinfo.reversed == node.reversed &&
  nodeinfo.smax == node.smax &&
  nodeinfo.ttl == node.ttl

/-- Check if another node has the same worker (is_same_worker_existing):
scan the node table in slot order and stop at the first row with the same
worker tuple; same JVMRoute or a cleaned tombstone (removed flag set and
route already rewritten to REMOVED) means no conflict, anything else is a
conflict. -/
def is_same_worker_existing (nodes : List nodeinfo_t) (node : nodemess_t) : Bool :=
  match nodes with
  | [] => false
  | ou :: rest =>
    if is_same_node ou.mess node then
      if ou.mess.JVMRoute == node.JVMRoute then false
      else if !(ou.mess.remove == 0) && ou.mess.JVMRoute == "REMOVED" then false
      else true
    else is_same_worker_existing rest node

/-- Tombstone a node row (mark_node_removed): route rewritten to REMOVED,
removed flag set, update time refreshed, remove-check counter reset. -/
def mark_node_removed (now : Int) (node : nodeinfo_t) : nodeinfo_t :=
  { node with
    mess := { node.mess with JVMRoute := "REMOVED", remove := 1, num_remove_check := 0 }
    updatetime := now }

/-- Remove the virtual hosts and contexts corresponding to the node
(loc_remove_host_context). -/
def loc_remove_host_context (node : Int) (hosts : List hostinfo_t)
    (contexts : List contextinfo_t) : List hostinfo_t × List contextinfo_t :=
  (hosts.filter (fun h => !(h.node == node)),
   contexts.filter (fun c => !(c.node == node)))

/-- Split a comma list, as the separator-replacement loops of
insert_update_hosts and insert_update_contexts do. -/
def splitComma (s : String) : List String :=
  (s.data.foldr
    (fun c acc =>
      if c == ',' then [] :: acc
      else
        match acc with
        | [] => [[c]]
        | t :: ts => (c :: t) :: ts)
    [[]]).map String.mk

/-- Insert the hosts from the Alias information (insert_update_hosts): one
host row per comma-separated alias, a NULL list giving one empty alias.
Returns the table after the inserts that happened and whether all of them
succeeded (a failure leaves completed inserts in place, as in C). -/
def insert_update_hosts (hosts : List hostinfo_t) (maxhost : Nat)
    (str : Option String) (node vhost : Int) : List hostinfo_t × Bool :=
  let segs := match str with
              | none => [""]
              | some s => splitComma s
  segs.foldl
    (fun (acc : List hostinfo_t × Bool) seg =>
      if acc.2 then
        match insert_update_host acc.1 maxhost
            { id := 0, host := strTrunc HOSTALIASZ seg, vhost := vhost, node := node } with
        | some hs => (hs, true)
        | none => (acc.1, false)
      else acc)
    (hosts, true)

/-- Remove the context matching the key after reading it
(read_remove_context); absent rows are ignored. -/
def read_remove_context (contexts : List contextinfo_t) (node vhost : Int)
    (path : String) : List contextinfo_t :=
  match read_context contexts node vhost path with
  | some info => remove_context contexts info.id
  | none => contexts

/-- Insert the contexts from the Context information
(insert_update_contexts): one row per comma-separated path, in the given
status; a NULL list gives the single path /; REMOVE removes the rows and
ignores failures. -/
def insert_update_contexts (contexts : List contextinfo_t) (maxcontext : Nat)
    (str : Option String) (node vhost status : Int) : List contextinfo_t × Bool :=
  let segs := match str with
              | none => ["/"]
              | some s => splitComma s
  segs.foldl
    (fun (acc : List contextinfo_t × Bool) seg =>
      if acc.2 then
        let path := strTrunc CONTEXTSZ seg
        if !(status == REMOVE) then
          match insert_update_context acc.1 maxcontext
              { id := 0, context := path, vhost := vhost, node := node,
                status := status, nbrequests := 0 } with
          | some cs => (cs, true)
          | none => (acc.1, false)
        else (read_remove_context acc.1 node vhost path, true)
      else acc)
    (contexts, true)

/-- Alias/Context insertion loop at the end of process_config: one vhost id
per cluster_host pair, hosts then contexts (in status STOPPED), stopping at
the first failure.  The errtype is not set on these two error paths in the
C code, so the errors are reported with type 0 (GENERAL). -/
def config_vhost_loop : MState → Int → Int → List cluster_host → MState × MCResult
  | s, _, _, [] => (s, .ok)
  | s, id, vid, ph :: rest =>
    match insert_update_hosts s.hosts s.maxhost ph.host id vid with
    | (hosts', false) => ({ s with hosts := hosts' }, .err 0 MHOSTUI)
    | (hosts', true) =>
      let s := { s with hosts := hosts' }
      match insert_update_contexts s.contexts s.maxcontext ph.context id vid STOPPED with
      | (ctxs', false) => ({ s with contexts := ctxs' }, .err 0 MCONTUI)
      | (ctxs', true) => config_vhost_loop { s with contexts := ctxs' } id (vid + 1) rest

/-- Tail of process_config after a slot id has been decided: upsert the node
row (re-tombstoning a reused slot on failure), bump the version and insert
the Alias/Context pairs; an absent first pair skips the insertion loop. -/
def config_insert (now : Int) (mess : nodemess_t) (vhosts : List cluster_host)
    (s : MState) (id : Int) (clean : Bool) (removed : Int) : MState × MCResult :=
  let nodeinf : nodeinfo_t := { mess := mess, updatetime := now }
  match insert_update_node s.nodes s.maxnode nodeinf id clean with
  | none =>
    let s' := if !(removed == 0) then
        { s with nodes := update_node_row s.nodes removed (mark_node_removed now) }
      else s
    (s', .err TYPEMEM MNODEUI)
  | some (nodes', newid) =>
    let s := inc_version_node { s with nodes := nodes' }
    match vhosts with
    | [] => (s, .ok)
    | first :: _ =>
      if !first.host.isSome && !first.context.isSome then (s, .ok)
      else config_vhost_loop s newid 1 vhosts

/-- Rehydration of a tombstoned row found by Host/Port: the strcpy of the
new JVMRoute plus the clearing of the removed flag and the remove-check
counter in process_config. -/
def rehydrate_tombstone (route : String) (n : nodeinfo_t) : nodeinfo_t :=
  { n with mess := { n.mess with JVMRoute := route, remove := 0, num_remove_check := 0 } }

/-- Route reassignment of a REMOVED row found through the proxy worker id
(the strcpy in the proxy_node_getid branch of process_config). -/
def reassign_route (route : String) (n : nodeinfo_t) : nodeinfo_t :=
  { n with mess := { n.mess with JVMRoute := route } }

/-- Worker-reconciliation part of process_config (from proxy_node_getid to
the free-id choice): an existing proxy worker forces its slot (checking the
route stored there and remembering a reused slot for rollback); otherwise a
node at the same Host/Port is reused, rehydrating it when it is a cleaned
tombstone; otherwise the reconciler picks a free id, -1 letting
insert_update_node allocate. -/
def config_worker (ora : Reconciler) (now : Int) (mess : nodemess_t)
    (vhosts : List cluster_host) (s : MState) (node? : Option nodeinfo_t) :
    MState × MCResult :=
  let wid := (ora.getid mess).getD (-1)
  if !(wid == -1) then
    match node? with
    | some node =>
      if node.mess.id == wid then
        config_insert now mess vhosts s wid true 0
      else
        config_insert now mess vhosts s wid false 0
    | none =>
      match read_node_id s.nodes wid with
      | some workernode =>
        if workernode.mess.JVMRoute == "REMOVED" then
          let nodes' := update_node_row s.nodes wid (reassign_route mess.JVMRoute)
          config_insert now mess vhosts { s with nodes := nodes' } wid false wid
        else if !(workernode.mess.JVMRoute == "") &&
                !(workernode.mess.JVMRoute == mess.JVMRoute) then
          (s, .err TYPEMEM MNODEET)
        else
          config_insert now mess vhosts s wid false wid
      | none => config_insert now mess vhosts s wid false 0
  else
    match find_node_byhostport s.nodes mess.Host mess.Port with
    | some w =>
      if w.mess.JVMRoute == "REMOVED" then
        let nodes' := update_node_row s.nodes w.mess.id (rehydrate_tombstone mess.JVMRoute)
        config_insert now mess vhosts { s with nodes := nodes' } w.mess.id true 0
      else
        config_insert now mess vhosts s w.mess.id true 0
    | none =>
      match ora.free_id s.maxnode with
      | some fid => config_insert now mess vhosts s fid true 0
      | none => config_insert now mess vhosts s (-1) true 0

/-- Transactional body of process_config, entered under the node lock:
balancer upsert, tombstone check against an existing node with the same
JVMRoute, duplicate-worker check, then worker reconciliation and the node
upsert. -/
def process_config_body (ora : Reconciler) (now : Int) (bal : balancerinfo_t)
    (mess : nodemess_t) (vhosts : List cluster_host) (s : MState) : MState × MCResult :=
  match insert_update_balancer s.balancers s.maxhost bal with
  | none => (s, .err TYPEMEM MBALAUI)
  | some bals =>
    let s := { s with balancers := bals }
    let node? := read_node_route s.nodes mess.JVMRoute
    match node? with
    | some node =>
      if is_same_node node.mess mess then
        if is_same_worker_existing s.nodes mess then (s, .err TYPEMEM MNODEET)
        else config_worker ora now mess vhosts s node?
      else
        let nodes' := update_node_row s.nodes node.mess.id (mark_node_removed now)
        let (hosts', ctxs') := loc_remove_host_context node.mess.id s.hosts s.contexts
        (inc_version_node { s with nodes := nodes', hosts := hosts', contexts := ctxs' },
         .err TYPEMEM MNODERM)
    | none =>
      if is_same_worker_existing s.nodes mess then (s, .err TYPEMEM MNODEET)
      else config_worker ora now mess vhosts s none

/-- Process a CONFIG message (process_config): parse the token pairs,
validate, then run the transactional body. -/
def process_config (mconf : mod_manager_config) (ora : Reconciler) (now : Int)
    (tokens : List String) (s : MState) : MState × MCResult :=
  match config_parse_loop tokens (process_config_balancer_defaults mconf)
      (process_config_node_defaults mconf) [{ host := none, context := none }] with
  | .error e => (s, e)
  | .ok (bal, mess, vhosts) =>
    match process_config_checks mconf mess with
    | .error e => (s, e)
    | .ok mess => process_config_body ora now bal mess vhosts s

/- Application-scope commands, translated from process_appl_cmd and
process_node_cmd. -/

/-- Token walk of process_appl_cmd: JVMRoute (with size check), exactly one
Alias (lower-cased on entry, RFC 1035) and exactly one Context; unknown keys
are ignored.  A trailing key without a value is the same crash as in
config_parse_loop. -/
def appl_parse_loop : List String → String → Option String → Option String →
    Except MCResult (String × Option String × Option String)
  | [], route, al, ctx => .ok (route, al, ctx)
  | [_], _, _, _ => .error .crash
  | key :: val :: rest, route, al, ctx =>
    if strcaseeq key "JVMRoute" then
      if val.length ≥ JVMROUTESZ then .error (.err TYPESYNTAX SROUBIG)
      else appl_parse_loop rest val al ctx
    else if strcaseeq key "Alias" then
      if al.isSome then .error (.err TYPESYNTAX SMULALB)
      else appl_parse_loop rest route (some (lowerStr val)) ctx
    else if strcaseeq key "Context" then
      if ctx.isSome then .error (.err TYPESYNTAX SMULCTB)
      else appl_parse_loop rest route al (some val)
    else appl_parse_loop rest route al ctx

/-- Process one host of a node-scope *-APP command (the body of the host
loop of process_node_cmd): for a host of the node, set every context of its
(node, vhost) to the target status, or remove them and then the host when
the command is REMOVE. -/
def node_cmd_host_step (status : Int) (nid : Int) (s : MState) (h : hostinfo_t) : MState :=
  if !(h.node == nid) then s
  else
    let s :=
      if !(status == REMOVE) then
        { s with contexts := s.contexts.map (fun c =>
            if c.vhost == h.vhost && c.node == h.node then { c with status := status } else c) }
      else
        { s with contexts := s.contexts.filter (fun c =>
            !(c.vhost == h.vhost && c.node == h.node)) }
    if status == REMOVE then { s with hosts := remove_host s.hosts h.id } else s

/-- Process a *-APP command that applies to the whole node
(process_node_cmd): iterate the snapshot of host ids, then for REMOVE mark
the node row removed (the row keeps its slot and, unlike mark_node_removed,
its JVMRoute). -/
def process_node_cmd (status : Int) (node : nodeinfo_t) (s : MState) : MState :=
  let s := s.hosts.foldl (node_cmd_host_step status node.mess.id) s
  if status == REMOVE then
    { s with nodes := (update_node_row s.nodes node.mess.id
        (fun n => { n with mess := { n.mess with remove := 1 } })) }
  else s

/-- First comma segment of the Alias value, bounded by the host field size
(the strncpy-and-cut in process_appl_cmd before the host lookup). -/
def first_alias_segment (al : Option String) : String :=
  match al with
  | none => ""
  | some str => String.mk ((str.data.take HOSTALIASZ).takeWhile (fun c => !(c == ',')))

/-- Largest vhost id used by the node's hosts, 0 when none (the free-vhost
scan of process_appl_cmd). -/
def max_vhost_of_node (hosts : List hostinfo_t) (nid : Int) : Int :=
  hosts.foldl (fun vid h => if h.node == nid && h.vhost > vid then h.vhost else vid) 0

/-- Context-scope tail of process_appl_cmd once a host row is at hand:
update every listed context to the target status (the ENABLE cross-balancer
check only logs), then for REMOVE drop the host rows of the (node, vhost)
once no context remains there.  The STOP-APP response body is output, not
registry state. -/
def appl_with_host (status : Int) (ctx : Option String)
    (node : nodeinfo_t) (host : hostinfo_t) (s : MState) : MState × MCResult :=
  match insert_update_contexts s.contexts s.maxcontext ctx node.mess.id host.vhost status with
  | (ctxs', false) => ({ s with contexts := ctxs' }, .err TYPEMEM MCONTUI)
  | (ctxs', true) =>
    let s := { s with contexts := ctxs' }
    if status == REMOVE then
      if s.contexts.any (fun c => c.vhost == host.vhost && c.node == node.mess.id) then
        (s, .ok)
      else
        ({ s with hosts := s.hosts.filter (fun h =>
            !(h.vhost == host.vhost && h.node == node.mess.id)) }, .ok)
    else (s, .ok)

/-- Context-scope part of process_appl_cmd: look up the virtual host by the
first alias; a missing host is ignored by REMOVE, otherwise a fresh vhost id
is assigned and the alias list inserted before re-reading the row (the
re-read uses the full alias value, not the first segment). -/
def appl_context_scope (status : Int) (al ctx : Option String)
    (node : nodeinfo_t) (s : MState) : MState × MCResult :=
  match read_host s.hosts node.mess.id (first_alias_segment al) with
  | some host => appl_with_host status ctx node host s
  | none =>
    if status == REMOVE then (s, .ok)
    else
      let vid := max_vhost_of_node s.hosts node.mess.id + 1
      match insert_update_hosts s.hosts s.maxhost al node.mess.id vid with
      | (hosts', false) => ({ s with hosts := hosts' }, .err TYPEMEM MHOSTUI)
      | (hosts', true) =>
        let s := { s with hosts := hosts' }
        let full := match al with
                    | some a => strTrunc (HOSTALIASZ - 1) a
                    | none => ""
        match read_host s.hosts node.mess.id full with
        | none => (s, .err TYPEMEM MHOSTRD)
        | some host => appl_with_host status ctx node host s

/-- Locked body of process_appl_cmd: read the node by JVMRoute (REMOVE of an
unknown or already tombstoned node succeeds idempotently, anything else is a
memory-kind error), bump the version, then apply node scope or context
scope. -/
def process_appl_body (status : Int) (global : Bool) (route : String)
    (al ctx : Option String) (s : MState) : MState × MCResult :=
  match read_node_route s.nodes route with
  | none =>
    if status == REMOVE then (s, .ok) else (s, .err TYPEMEM MNODERD)
  | some node =>
    if !(node.mess.remove == 0) then
      if status == REMOVE then (s, .ok) else (s, .err TYPEMEM MNODERD)
    else
      let s := inc_version_node s
      if global then (process_node_cmd status node s, .ok)
      else appl_context_scope status al ctx node s

/-- Process an application command (process_appl_cmd): parse, check the
JVMRoute / Alias / Context requirements, then run the locked body.  The
fromnode flag only selects the STOP-APP response body (output, not state)
and is not needed here. -/
def process_appl_cmd (status : Int) (global : Bool)
    (tokens : List String) (s : MState) : MState × MCResult :=
  match appl_parse_loop tokens "" none none with
  | .error e => (s, e)
  | .ok (route, al, ctx) =>
    if route == "" then (s, .err TYPESYNTAX SROUBAD)
    else if !ctx.isSome && al.isSome then (s, .err TYPESYNTAX SALIBAD)
    else if !al.isSome && ctx.isSome then (s, .err TYPESYNTAX SCONBAD)
    else process_appl_body status global route al ctx s

/- The STATUS and PING processors only read the registry; their parse
errors are modelled because they are part of the handler's error surface,
the probing itself is external. -/

/-- Token walk of process_status: JVMRoute and Load only, any other key is
rejected. -/
def status_parse_loop : List String → Option String →
    Except MCResult (Option String)
  | [], route => .ok route
  | [_], _ => .error .crash
  | key :: val :: rest, route =>
    if strcaseeq key "JVMRoute" then
      if val.length ≥ JVMROUTESZ then .error (.err TYPESYNTAX SROUBIG)
      else status_parse_loop rest (some val)
    else if strcaseeq key "Load" then status_parse_loop rest route
    else .error (.err TYPESYNTAX SBADFLD)

/-- Process the STATUS command (process_status): reads the node and asks the
external probe; the registry is not mutated. -/
def process_status (tokens : List String) (s : MState) : MState × MCResult :=
  match status_parse_loop tokens none with
  | .error e => (s, e)
  | .ok route =>
    match read_node_route s.nodes (route.getD "") with
    | none => (s, .err TYPEMEM MNODERD)
    | some _ => (s, .ok)

/-- Dispatch of manager_handler over the MCMP methods: the mutating
processors, the read-only processors (DUMP, INFO, PING, VERSION answer from
a read-only walk of the tables), and SCMDUNS for the recognised but
unimplemented methods. -/
def mcmp_dispatch (mconf : mod_manager_config) (ora : Reconciler) (now : Int)
    (method : String) (global : Bool) (tokens : List String) (s : MState) :
    MState × MCResult :=
  if strcaseeq method "CONFIG" then process_config mconf ora now tokens s
  else if strcaseeq method "ENABLE-APP" then process_appl_cmd ENABLED global tokens s
  else if strcaseeq method "DISABLE-APP" then process_appl_cmd DISABLED global tokens s
  else if strcaseeq method "STOP-APP" then process_appl_cmd STOPPED global tokens s
  else if strcaseeq method "REMOVE-APP" then process_appl_cmd REMOVE global tokens s
  else if strcaseeq method "STATUS" then process_status tokens s
  else if strcaseeq method "DUMP" then (s, .ok)
  else if strcaseeq method "INFO" then (s, .ok)
  else if strcaseeq method "PING" then (s, .ok)
  else if strcaseeq method "VERSION" then (s, .ok)
  else (s, .err TYPESYNTAX SCMDUNS)

/-- Node-scope test of manager_trans: the URI * or any URI ending in /*
routes the *-APP verbs to node scope. -/
def uri_is_node_command (uri : String) : Bool :=
  uri == "*" ||
  (uri.length ≥ 2 && (uri.data.reverse.take 2 == ['*', '/']))

/-- The MCMP receiver (manager_handler): read and tokenize the body
(process_buff, whose failure is the SMESPAR SYNTAX error), derive the scope
from the URI, and dispatch on the request method. -/
def manager_handler (mconf : mod_manager_config) (ora : Reconciler) (now : Int)
    (method uri body : String) (s : MState) : MState × MCResult :=
  match process_buff body with
  | none => (s, .err TYPESYNTAX SMESPAR)
  | some tokens => mcmp_dispatch mconf ora now method (uri_is_node_command uri) tokens s

/- Concrete fixtures used by the witnesses and counterexamples below: a
default module configuration, a reconciler with no registered balancer
handler (proxy_node_getid yields NULL, proxy_node_get_free_id yields -1),
the empty registry with the default capacities, and the registry after one
fresh CONFIG of node1. -/

/-- Default module configuration (no overrides). -/
def mconf_default : mod_manager_config :=
  { balancername := none, enable_ws_tunnel := false, ws_upgrade_header := none,
    ajp_secret := none, response_field_size := 0 }

/-- Reconciler with no balancer handler registered. -/
def ora_none : Reconciler := { getid := fun _ => none, free_id := fun _ => none }

/-- Empty registry with the default capacities (Maxnode 20, Maxhost 20,
Maxcontext 100). -/
def state0 : MState :=
  { nodes := [], hosts := [], contexts := [], balancers := [],
    version := 0, maxnode := 20, maxhost := 20, maxcontext := 100 }

/-- Registry after a fresh CONFIG of node1 at 10.0.0.1:8009 (scenario 1 of
the spec). -/
def state_node1 : MState :=
  (manager_handler mconf_default ora_none 100 "CONFIG" "/"
    "JVMRoute=node1&Host=10.0.0.1&Port=8009&Type=ajp&Alias=example.com&Context=/app"
    state0).1

/-- Sample live node row used by witnesses. -/
def nodeA : nodeinfo_t :=
  { mess := { id := 1, balancer := "mycluster", JVMRoute := "nodeA", Domain := "",
              Host := "10.0.0.7", Port := "8009", Typ := "ajp", Upgrade := "",
              AJPSecret := "", reversed := 0, remove := 0, ResponseFieldSize := 0,
              flushpackets := 0, flushwait := 10000, ping := 10000000, smax := -1,
              ttl := 60000000, timeout := 0, num_remove_check := 0 }
    updatetime := 0 }


/-- Sample registry holding nodeA, one of its hosts and one context. -/
def stateA : MState :=
  { nodes := [nodeA]
    hosts := [{ id := 1, host := "example.com", vhost := 1, node := 1 }]
    contexts := [{ id := 1, context := "/app", vhost := 1, node := 1,
                   status := 3, nbrequests := 0 }]
    balancers := [{ id := 1, balancer := "mycluster", StickySession := 1,
                    StickySessionCookie := "JSESSIONID", StickySessionPath := "jsessionid",
                    StickySessionRemove := 0, StickySessionForce := 1,
                    Timeout := 0, Maxattempts := 1 }]
    version := 5, maxnode := 20, maxhost := 20, maxcontext := 100 }


/-- Node message of a CONFIG that reuses the route nodeA at another
endpoint (used by the C1 witness). -/
def messB : nodemess_t :=
  { process_config_node_defaults mconf_default with JVMRoute := "nodeA", Host := "10.0.0.9" }


/-- Node message of a CONFIG carrying the fresh route nodeB on the same
worker tuple as nodeA (used by the C3 witness). -/
def messDup : nodemess_t :=
  { process_config_node_defaults mconf_default with JVMRoute := "nodeB", Host := "10.0.0.7" }


/-- Node/host/context graph of the registry (the version counter guards
these three tables). -/
def graphOf (s : MState) : List nodeinfo_t × List hostinfo_t × List contextinfo_t :=
  (s.nodes, s.hosts, s.contexts)


/-- New node row written into a reused slot: the incoming message stored at
the slot id, as insert_update_node does. -/
def slot_row (mess : nodemess_t) (id now : Int) : nodeinfo_t :=
  { mess := { mess with id := id }, updatetime := now }


/-- Tombstoned row at 10.0.0.5:8009 used by the C6 witness (slot 2, route
already rewritten to REMOVED, remove-check counter part-way advanced). -/
def nodeTomb : nodeinfo_t :=
  { mess := { nodeA.mess with id := 2, JVMRoute := "REMOVED", Host := "10.0.0.5", remove := 1, num_remove_check := 3 }
    updatetime := 50 }


/-- Registry holding the live nodeA and the tombstone nodeTomb. -/
def stateTomb : MState :=
  { stateA with nodes := [nodeA, nodeTomb] }


/-- Node message of a CONFIG carrying the new route nodeC at the
tombstone's endpoint 10.0.0.5:8009 (used by the C6 witness). -/
def messC : nodemess_t :=
  { process_config_node_defaults mconf_default with JVMRoute := "nodeC", Host := "10.0.0.5" }


/-- Claim C5, counterexample: the CONFIG of scenario 2 (same JVMRoute node1,
different endpoint 10.0.0.2) returns a MEM error, yet the registry is
mutated by that very command: the old row is tombstoned, its host and
context rows are deleted and the version moves, so an error response does
not imply that no mutation survived. -/
theorem c5_counterexample_mem_error_mutates :
    (manager_handler mconf_default ora_none 200 "CONFIG" "/"
      "JVMRoute=node1&Host=10.0.0.2&Port=8009&Type=ajp" state_node1).2 =
      MCResult.err TYPEMEM MNODERM ∧
    (manager_handler mconf_default ora_none 200 "CONFIG" "/"
      "JVMRoute=node1&Host=10.0.0.2&Port=8009&Type=ajp" state_node1).1 ≠ state_node1 := by
  constructor
  · rfl
  · decide

/-- Claim C7, counterexample: the body JVMRoute=x&a=&b=%3C contains a token
whose percent-decoding is the forbidden character <, yet the request does
not fail with SYNTAX: decodeenc returns success at the first empty token
(the value of a) without scanning the rest, the CONFIG is processed and the
registry is mutated. -/
theorem c7_counterexample_bad_decode_accepted :
    ((tokenize "JVMRoute=x&a=&b=%3C").any
      (fun t => (decode_all t.data).any bad_decode_char)) = true ∧
    (manager_handler mconf_default ora_none 0 "CONFIG" "/"
      "JVMRoute=x&a=&b=%3C" state0).2 = MCResult.ok ∧
    (manager_handler mconf_default ora_none 0 "CONFIG" "/"
      "JVMRoute=x&a=&b=%3C" state0).1 ≠ state0 := by
  refine ⟨by decide, rfl, by decide⟩

/-- Claim C9, counterexample: CONFIG stores the Alias value verbatim; the
upper-case alias WWW.Example.COM reaches the host table unchanged, so the
alias is not lowercased on entry by every command that stores aliases. -/
theorem c9_counterexample_config_alias_not_lowercased :
    (manager_handler mconf_default ora_none 0 "CONFIG" "/"
      "JVMRoute=x&Alias=WWW.Example.COM&Context=/app" state0).2 = MCResult.ok ∧
    ∃ h ∈ (manager_handler mconf_default ora_none 0 "CONFIG" "/"
      "JVMRoute=x&Alias=WWW.Example.COM&Context=/app" state0).1.hosts,
      h.host = "WWW.Example.COM" ∧ lowerStr h.host ≠ h.host := by
  refine ⟨rfl, by decide⟩

/-- Claim C8: the parser does not reject a final key without a value (nor an
empty body).  The body JVMRoute passes process_buff as a one-token list, so
the token sequence handed to the command processor is not a sequence of
complete key/value pairs; the C key/value walk then reads the NULL sentinel
as the value and walks past the token array (crash in this model), instead
of the SYNTAX failure the specification requires.  The empty body behaves
the same way. -/
theorem c8_parser_yields_incomplete_pairs :
    process_buff "JVMRoute" = some ["JVMRoute"] ∧
    ["JVMRoute"].length % 2 = 1 ∧
    manager_handler mconf_default ora_none 0 "CONFIG" "/" "JVMRoute" state0 =
      (state0, MCResult.crash) ∧
    manager_handler mconf_default ora_none 0 "CONFIG" "/" "" state0 =
      (state0, MCResult.crash) := by
  refine ⟨rfl, rfl, rfl, rfl⟩

/- Version bookkeeping lemmas: which processing steps leave the version
counter untouched, and what inc_version_node does. -/

theorem inc_version_node_version (s : MState) :
    (inc_version_node s).version = (s.version + 1) % 2 ^ 64 := rfl

theorem config_vhost_loop_version (vhosts : List cluster_host) (s : MState) (id vid : Int) :
    ((config_vhost_loop s id vid vhosts).1).version = s.version := by
  induction vhosts generalizing s vid with
  | nil => simp [config_vhost_loop]
  | cons ph rest ih =>
    simp only [config_vhost_loop]
    split
    · rfl
    · split
      · rfl
      · exact ih _ _

theorem config_vhost_loop_nodes (vhosts : List cluster_host) (s : MState) (id vid : Int) :
    ((config_vhost_loop s id vid vhosts).1).nodes = s.nodes := by
  induction vhosts generalizing s vid with
  | nil => simp [config_vhost_loop]
  | cons ph rest ih =>
    simp only [config_vhost_loop]
    split
    · rfl
    · split
      · rfl
      · exact ih _ _

theorem node_cmd_host_step_version (status nid : Int) (s : MState) (h : hostinfo_t) :
    (node_cmd_host_step status nid s h).version = s.version := by
  simp only [node_cmd_host_step]
  split
  · rfl
  · split <;> split <;> rfl

theorem foldl_node_cmd_version (status nid : Int) (L : List hostinfo_t) (s : MState) :
    (L.foldl (node_cmd_host_step status nid) s).version = s.version := by
  induction L generalizing s with
  | nil => rfl
  | cons h rest ih => rw [List.foldl_cons, ih, node_cmd_host_step_version]

theorem process_node_cmd_version (status : Int) (node : nodeinfo_t) (s : MState) :
    (process_node_cmd status node s).version = s.version := by
  simp only [process_node_cmd]
  split
  · exact foldl_node_cmd_version _ _ _ _
  · exact foldl_node_cmd_version _ _ _ _

theorem appl_with_host_version (status : Int) (ctx : Option String)
    (node : nodeinfo_t) (host : hostinfo_t) (s : MState) :
    ((appl_with_host status ctx node host s).1).version = s.version := by
  simp only [appl_with_host]
  split
  · rfl
  · split
    · split <;> rfl
    · rfl

theorem appl_context_scope_version (status : Int) (al ctx : Option String)
    (node : nodeinfo_t) (s : MState) :
    ((appl_context_scope status al ctx node s).1).version = s.version := by
  simp only [appl_context_scope]
  split
  · exact appl_with_host_version _ _ _ _ _
  · split
    · rfl
    · split
      · rfl
      · split
        · rfl
        · exact appl_with_host_version _ _ _ _ _

/-- Claim C10: an ENABLE-APP, DISABLE-APP, STOP-APP or REMOVE-APP command
that locates a live (non-removed) node increments the version counter
exactly once — its final version is (version + 1) mod 2^64 — in node scope
and context scope alike, whatever the command goes on to do or fail to do
afterwards, so readers may observe a version bump without any change to the
node/host/context graph. -/
theorem appl_live_node_bumps_version_once (status : Int) (global : Bool)
    (route : String) (al ctx : Option String) (s : MState) (n : nodeinfo_t)
    (hread : read_node_route s.nodes route = some n)
    (hlive : n.mess.remove = 0) :
    ((process_appl_body status global route al ctx s).1).version =
      (s.version + 1) % 2 ^ 64 := by
  simp only [process_appl_body, hread, hlive]
  norm_num
  split
  · rw [process_node_cmd_version, inc_version_node_version]; norm_num
  · rw [appl_context_scope_version, inc_version_node_version]; norm_num

/-- Witness for claim C10 at a concrete input: re-enabling a context of the
live node nodeA bumps the version from 5 to 6. -/
theorem appl_live_node_bumps_version_once_witness :
    read_node_route stateA.nodes "nodeA" = some nodeA ∧ nodeA.mess.remove = 0 ∧
    ((process_appl_body ENABLED false "nodeA" (some "example.com") (some "/app")
        stateA).1).version = (5 + 1) % 2 ^ 64 :=
  ⟨by decide, rfl,
    appl_live_node_bumps_version_once ENABLED false "nodeA" (some "example.com")
      (some "/app") stateA nodeA (by decide) rfl⟩

/-- Claim C1: a CONFIG whose JVMRoute matches an existing node that is not
identity-equivalent tombstones the existing row (mark_node_removed: route
rewritten to REMOVED, removed flag set), cascade-deletes every host and
context row of that node, increments the version counter and returns the
memory-kind error MNODERM. -/
theorem config_duplicate_route_tombstones (ora : Reconciler) (now : Int)
    (bal : balancerinfo_t) (mess : nodemess_t) (vhosts : List cluster_host)
    (s : MState) (bals : List balancerinfo_t) (n : nodeinfo_t)
    (hbal : insert_update_balancer s.balancers s.maxhost bal = some bals)
    (hread : read_node_route s.nodes mess.JVMRoute = some n)
    (hdiff : is_same_node n.mess mess = false) :
    process_config_body ora now bal mess vhosts s =
      (inc_version_node
        { s with balancers := bals
                 nodes := update_node_row s.nodes n.mess.id (mark_node_removed now)
                 hosts := s.hosts.filter (fun h => !(h.node == n.mess.id))
                 contexts := s.contexts.filter (fun c => !(c.node == n.mess.id)) },
       MCResult.err TYPEMEM MNODERM) := by
  simp only [process_config_body, hbal, hread, hdiff, loc_remove_host_context,
    Bool.false_eq_true, if_false]

/-- Witness for claim C1 at a concrete input: a CONFIG carrying route nodeA
with endpoint 10.0.0.9 against stateA (whose nodeA lives at 10.0.0.7)
tombstones the row, cascades and returns the MEM error. -/
theorem config_duplicate_route_tombstones_witness :
    insert_update_balancer stateA.balancers stateA.maxhost
      (process_config_balancer_defaults mconf_default) = some stateA.balancers ∧
    read_node_route stateA.nodes messB.JVMRoute = some nodeA ∧
    is_same_node nodeA.mess messB = false ∧
    process_config_body ora_none 777 (process_config_balancer_defaults mconf_default)
      messB [{ host := none, context := none }] stateA =
      (inc_version_node
        { stateA with balancers := stateA.balancers
                      nodes := update_node_row stateA.nodes nodeA.mess.id (mark_node_removed 777)
                      hosts := stateA.hosts.filter (fun h => !(h.node == nodeA.mess.id))
                      contexts := stateA.contexts.filter (fun c => !(c.node == nodeA.mess.id)) },
       MCResult.err TYPEMEM MNODERM) :=
  ⟨by decide, by decide, by decide,
    config_duplicate_route_tombstones ora_none 777
      (process_config_balancer_defaults mconf_default) messB
      [{ host := none, context := none }] stateA stateA.balancers nodeA
      (by decide) (by decide) (by decide)⟩

/- Lemmas for claim C3: when the duplicate-worker scan must report a
conflict. -/

theorem find?_none_routes_differ {nodes : List nodeinfo_t} {route : String}
    (h : read_node_route nodes route = none) :
    ∀ o ∈ nodes, ¬ o.mess.JVMRoute = route := by
  intro o ho
  have := List.find?_eq_none.mp h o ho
  simpa using this

theorem is_same_worker_existing_true (nodes : List nodeinfo_t) (mess : nodemess_t)
    (hroutes : ∀ o ∈ nodes, ¬ o.mess.JVMRoute = mess.JVMRoute)
    (htombs : ∀ o ∈ nodes, is_same_node o.mess mess = true →
      ¬ (¬ o.mess.remove = 0 ∧ o.mess.JVMRoute = "REMOVED"))
    (m : nodeinfo_t) (hm : m ∈ nodes) (hsame : is_same_node m.mess mess = true) :
    is_same_worker_existing nodes mess = true := by
  induction nodes with
  | nil => exact absurd hm (List.not_mem_nil m)
  | cons ou rest ih =>
    rw [is_same_worker_existing]
    by_cases hou : is_same_node ou.mess mess = true
    · simp only [hou, if_true]
      have hr := hroutes ou (List.mem_cons_self ou rest)
      have ht := htombs ou (List.mem_cons_self ou rest) hou
      have hr' : (ou.mess.JVMRoute == mess.JVMRoute) = false := by
        simpa using hr
      simp only [hr', if_false]
      by_cases hrem : ou.mess.remove = 0
      · simp [hrem]
      · have : ¬ ou.mess.JVMRoute = "REMOVED" := fun hc => ht ⟨hrem, hc⟩
        simp [hrem, this]
    · have hou' : is_same_node ou.mess mess = false := by
        simpa using hou
      simp only [hou', if_false, Bool.false_eq_true]
      have hm' : m ∈ rest := by
        rcases List.mem_cons.mp hm with rfl | h
        · exact absurd hsame hou
        · exact h
      exact ih (fun o ho => hroutes o (List.mem_cons_of_mem ou ho))
        (fun o ho => htombs o (List.mem_cons_of_mem ou ho)) hm'

/-- Claim C3: a CONFIG carrying a fresh JVMRoute whose worker tuple
(balancer, scheme, host, port, reversed, smax, ttl) equals that of a live
node with a different JVMRoute is refused with the memory-kind error
MNODEET and does not insert or update any node: the registry outside the
balancer upsert is untouched.  The side conditions state the registry
invariants under which the scan reports the conflict: no row carries the
incoming route, and no row sharing the tuple is a cleaned tombstone. -/
theorem config_duplicate_worker_refused (ora : Reconciler) (now : Int)
    (bal : balancerinfo_t) (mess : nodemess_t) (vhosts : List cluster_host)
    (s : MState) (bals : List balancerinfo_t) (m : nodeinfo_t)
    (hbal : insert_update_balancer s.balancers s.maxhost bal = some bals)
    (hfresh : read_node_route s.nodes mess.JVMRoute = none)
    (hm : m ∈ s.nodes) (hlive : m.mess.remove = 0)
    (hsame : is_same_node m.mess mess = true)
    (htombs : ∀ o ∈ s.nodes, is_same_node o.mess mess = true →
      ¬ (¬ o.mess.remove = 0 ∧ o.mess.JVMRoute = "REMOVED")) :
    process_config_body ora now bal mess vhosts s =
      ({ s with balancers := bals }, MCResult.err TYPEMEM MNODEET) := by
  have hscan : is_same_worker_existing s.nodes mess = true :=
    is_same_worker_existing_true s.nodes mess
      (find?_none_routes_differ hfresh) htombs m hm hsame
  simp only [process_config_body, hbal, hfresh, hscan, if_true]

/-- Witness for claim C3 at a concrete input: a CONFIG of route nodeB with
the worker tuple of the live node nodeA is refused with MNODEET against
stateA. -/
theorem config_duplicate_worker_refused_witness :
    insert_update_balancer stateA.balancers stateA.maxhost
      (process_config_balancer_defaults mconf_default) = some stateA.balancers ∧
    read_node_route stateA.nodes messDup.JVMRoute = none ∧
    nodeA ∈ stateA.nodes ∧ nodeA.mess.remove = 0 ∧
    is_same_node nodeA.mess messDup = true ∧
    process_config_body ora_none 888 (process_config_balancer_defaults mconf_default)
      messDup [{ host := none, context := none }] stateA =
      ({ stateA with balancers := stateA.balancers }, MCResult.err TYPEMEM MNODEET) :=
  ⟨by decide, by decide, by decide, rfl, by decide,
    config_duplicate_worker_refused ora_none 888
      (process_config_balancer_defaults mconf_default) messDup
      [{ host := none, context := none }] stateA stateA.balancers nodeA
      (by decide) (by decide) (by decide) rfl (by decide) (by decide)⟩

/- Lemmas for claim C4: the node-scope REMOVE cascade. -/

theorem node_cmd_host_step_nodes (status nid : Int) (s : MState) (h : hostinfo_t) :
    (node_cmd_host_step status nid s h).nodes = s.nodes := by
  simp only [node_cmd_host_step]
  split
  · rfl
  · split <;> split <;> rfl

theorem foldl_node_cmd_nodes (status nid : Int) (L : List hostinfo_t) (s : MState) :
    (L.foldl (node_cmd_host_step status nid) s).nodes = s.nodes := by
  induction L generalizing s with
  | nil => rfl
  | cons h rest ih => rw [List.foldl_cons, ih, node_cmd_host_step_nodes]

theorem node_cmd_remove_step_hosts (nid : Int) (s : MState) (h : hostinfo_t)
    (hh : h.node = nid) :
    (node_cmd_host_step REMOVE nid s h).hosts =
      s.hosts.filter (fun z => !(z.id == h.id)) := by
  simp [node_cmd_host_step, remove_host, hh]

theorem node_cmd_skip_step (status nid : Int) (s : MState) (h : hostinfo_t)
    (hh : ¬ h.node = nid) :
    node_cmd_host_step status nid s h = s := by
  simp [node_cmd_host_step, hh]

theorem node_cmd_remove_step_contexts (nid : Int) (s : MState) (h : hostinfo_t)
    (hh : h.node = nid) :
    (node_cmd_host_step REMOVE nid s h).contexts =
      s.contexts.filter (fun c => !(c.vhost == h.vhost && c.node == h.node)) := by
  simp [node_cmd_host_step, hh]

theorem node_cmd_fold_hosts_removed (nid : Int) (L : List hostinfo_t) :
    ∀ s : MState, (∀ x ∈ s.hosts, x.node = nid → x ∈ L) →
      ∀ x ∈ (L.foldl (node_cmd_host_step REMOVE nid) s).hosts, ¬ x.node = nid := by
  induction L with
  | nil =>
    intro s hinv x hx hxn
    exact absurd (hinv x hx hxn) (List.not_mem_nil x)
  | cons h rest ih =>
    intro s hinv x hx
    rw [List.foldl_cons] at hx
    refine ih (node_cmd_host_step REMOVE nid s h) ?_ x hx
    intro y hy hyn
    by_cases hh : h.node = nid
    · rw [node_cmd_remove_step_hosts nid s h hh] at hy
      have hmem := List.mem_filter.mp hy
      rcases List.mem_cons.mp (hinv y hmem.1 hyn) with rfl | hmemr
      · have := hmem.2
        simp at this
      · exact hmemr
    · rw [node_cmd_skip_step REMOVE nid s h hh] at hy
      rcases List.mem_cons.mp (hinv y hy hyn) with rfl | hmemr
      · exact absurd hyn hh
      · exact hmemr

theorem node_cmd_fold_contexts_removed (nid : Int) (L : List hostinfo_t) :
    ∀ s : MState,
      (∀ c ∈ s.contexts, c.node = nid → ∃ h ∈ L, h.node = nid ∧ h.vhost = c.vhost) →
      ∀ c ∈ (L.foldl (node_cmd_host_step REMOVE nid) s).contexts, ¬ c.node = nid := by
  induction L with
  | nil =>
    intro s hinv c hc hcn
    rcases hinv c hc hcn with ⟨h, hh, _⟩
    exact absurd hh (List.not_mem_nil h)
  | cons h rest ih =>
    intro s hinv c hc
    rw [List.foldl_cons] at hc
    refine ih (node_cmd_host_step REMOVE nid s h) ?_ c hc
    intro d hd hdn
    by_cases hh : h.node = nid
    · have hctx : (node_cmd_host_step REMOVE nid s h).contexts =
          s.contexts.filter (fun c => !(c.vhost == h.vhost && c.node == h.node)) :=
        node_cmd_remove_step_contexts nid s h hh
      rw [hctx] at hd
      have hmem := List.mem_filter.mp hd
      rcases hinv d hmem.1 hdn with ⟨y, hy, hyn, hyv⟩
      rcases List.mem_cons.mp hy with rfl | hymem
      · exfalso
        have := hmem.2
        simp [hyv, hdn, hh] at this
      · exact ⟨y, hymem, hyn, hyv⟩
    · rw [node_cmd_skip_step REMOVE nid s h hh] at hd
      rcases hinv d hd hdn with ⟨y, hy, hyn, hyv⟩
      rcases List.mem_cons.mp hy with rfl | hymem
      · exact absurd hyn hh
      · exact ⟨y, hymem, hyn, hyv⟩

/-- Claim C4: after a REMOVE-APP in node scope for a live node, no host row
and no context row of that node remains and the node row itself is marked
removed, and the command succeeds.  The side condition is the registry
invariant that every context of the node belongs to one of the node's
virtual hosts (REMOVE cascades context removal through the node's host
rows). -/
theorem remove_app_node_scope_cascades (route : String) (al ctx : Option String)
    (s : MState) (n : nodeinfo_t)
    (hread : read_node_route s.nodes route = some n)
    (hlive : n.mess.remove = 0)
    (hcover : ∀ c ∈ s.contexts, c.node = n.mess.id →
      ∃ h ∈ s.hosts, h.node = n.mess.id ∧ h.vhost = c.vhost) :
    (process_appl_body REMOVE true route al ctx s).2 = MCResult.ok ∧
    (∀ h ∈ ((process_appl_body REMOVE true route al ctx s).1).hosts,
      ¬ h.node = n.mess.id) ∧
    (∀ c ∈ ((process_appl_body REMOVE true route al ctx s).1).contexts,
      ¬ c.node = n.mess.id) ∧
    (∀ m ∈ ((process_appl_body REMOVE true route al ctx s).1).nodes,
      m.mess.id = n.mess.id → m.mess.remove = 1) := by
  have hbody : process_appl_body REMOVE true route al ctx s =
      (process_node_cmd REMOVE n (inc_version_node s), MCResult.ok) := by
    simp [process_appl_body, hread, hlive]
  rw [hbody]
  have hfold_hosts :
      ∀ x ∈ ((inc_version_node s).hosts.foldl
        (node_cmd_host_step REMOVE n.mess.id) (inc_version_node s)).hosts,
        ¬ x.node = n.mess.id :=
    node_cmd_fold_hosts_removed n.mess.id (inc_version_node s).hosts
      (inc_version_node s) (fun x hx _ => hx)
  have hfold_ctxs :
      ∀ c ∈ ((inc_version_node s).hosts.foldl
        (node_cmd_host_step REMOVE n.mess.id) (inc_version_node s)).contexts,
        ¬ c.node = n.mess.id :=
    node_cmd_fold_contexts_removed n.mess.id (inc_version_node s).hosts
      (inc_version_node s) (fun c hc hcn => hcover c hc hcn)
  have hpnc : process_node_cmd REMOVE n (inc_version_node s) =
      { ((inc_version_node s).hosts.foldl
          (node_cmd_host_step REMOVE n.mess.id) (inc_version_node s)) with
        nodes := (update_node_row
          ((inc_version_node s).hosts.foldl
            (node_cmd_host_step REMOVE n.mess.id) (inc_version_node s)).nodes
          n.mess.id
          (fun m => { m with mess := { m.mess with remove := 1 } })) } := by
    simp [process_node_cmd]
  refine ⟨rfl, ?_, ?_, ?_⟩
  · intro h hh
    rw [hpnc] at hh
    exact hfold_hosts h hh
  · intro c hc
    rw [hpnc] at hc
    exact hfold_ctxs c hc
  · intro m hm hmid
    rw [hpnc] at hm
    simp only [update_node_row, List.mem_map] at hm
    rcases hm with ⟨y, _, rfl⟩
    by_cases hy : y.mess.id == n.mess.id
    · simp [hy]
    · exfalso
      simp only [hy, Bool.false_eq_true, if_false] at hmid
      exact absurd (by simpa using hmid) (by simpa using hy)

/-- Witness for claim C4 at a concrete input: REMOVE-APP in node scope on
the live node nodeA of stateA empties its host and context rows and marks
the node removed. -/
theorem remove_app_node_scope_cascades_witness :
    read_node_route stateA.nodes "nodeA" = some nodeA ∧ nodeA.mess.remove = 0 ∧
    ((process_appl_body REMOVE true "nodeA" (some "example.com") (some "/app")
        stateA).2 = MCResult.ok ∧
     (∀ h ∈ ((process_appl_body REMOVE true "nodeA" (some "example.com") (some "/app")
        stateA).1).hosts, ¬ h.node = nodeA.mess.id) ∧
     (∀ c ∈ ((process_appl_body REMOVE true "nodeA" (some "example.com") (some "/app")
        stateA).1).contexts, ¬ c.node = nodeA.mess.id) ∧
     (∀ m ∈ ((process_appl_body REMOVE true "nodeA" (some "example.com") (some "/app")
        stateA).1).nodes, m.mess.id = nodeA.mess.id → m.mess.remove = 1)) :=
  ⟨by decide, rfl,
    remove_app_node_scope_cascades "nodeA" (some "example.com") (some "/app")
      stateA nodeA (by decide) rfl (by decide)⟩

/- Lemmas for claim C2: any change to the node/host/context graph is
accompanied by exactly one version bump. -/

theorem insert_update_node_row_exists (nodes : List nodeinfo_t) (maxnode : Nat)
    (node : nodeinfo_t) (id : Int) (clean : Bool)
    (hid : ¬ id = -1) (hrow : nodes.any (fun n => n.mess.id == id) = true) :
    insert_update_node nodes maxnode node id clean =
      some (update_node_row nodes id
        (fun _ => { node with mess := { node.mess with id := id } }), id) := by
  simp [insert_update_node, hid, hrow]

theorem update_node_row_any_id (ns : List nodeinfo_t) (i j : Int)
    (f : nodeinfo_t → nodeinfo_t) (hf : ∀ n, (f n).mess.id = n.mess.id) :
    ((update_node_row ns i f).any (fun n => n.mess.id == j)) =
      (ns.any (fun n => n.mess.id == j)) := by
  induction ns with
  | nil => rfl
  | cons n rest ih =>
    simp only [update_node_row, List.map_cons, List.any_cons] at *
    rw [ih]
    by_cases h : n.mess.id == i
    · simp [h, hf]
    · simp [h]

theorem read_node_id_some_any {ns : List nodeinfo_t} {wid : Int} {w : nodeinfo_t}
    (h : read_node_id ns wid = some w) :
    ns.any (fun n => n.mess.id == wid) = true := by
  have h' : ns.find? (fun n => n.mess.id == wid) = some w := h
  have hp := List.find?_some h'
  exact List.any_eq_true.mpr ⟨w, List.mem_of_find?_eq_some h', hp⟩

theorem byhostport_some_any {ns : List nodeinfo_t} {host port : String} {w : nodeinfo_t}
    (h : find_node_byhostport ns host port = some w) :
    ns.any (fun n => n.mess.id == w.mess.id) = true := by
  have h' : ns.find? (fun n => n.mess.Host == host && n.mess.Port == port) = some w := h
  exact List.any_eq_true.mpr ⟨w, List.mem_of_find?_eq_some h', by simp⟩

theorem config_insert_version_of_row (now : Int) (mess : nodemess_t)
    (vhosts : List cluster_host) (s : MState) (id : Int) (clean : Bool) (removed : Int)
    (hid : ¬ id = -1) (hrow : s.nodes.any (fun n => n.mess.id == id) = true) :
    ((config_insert now mess vhosts s id clean removed).1).version =
      (s.version + 1) % 2 ^ 64 := by
  simp only [config_insert,
    insert_update_node_row_exists s.nodes s.maxnode _ id clean hid hrow]
  cases vhosts with
  | nil => simp [inc_version_node]
  | cons first rest =>
    simp only []
    split
    · simp [inc_version_node]
    · rw [config_vhost_loop_version]
      simp [inc_version_node]

theorem config_insert_c2_removed0 (now : Int) (mess : nodemess_t)
    (vhosts : List cluster_host) (s : MState) (id : Int) (clean : Bool) :
    graphOf ((config_insert now mess vhosts s id clean 0).1) = graphOf s ∨
    ((config_insert now mess vhosts s id clean 0).1).version =
      (s.version + 1) % 2 ^ 64 := by
  simp only [config_insert]
  cases hins : insert_update_node s.nodes s.maxnode { mess := mess, updatetime := now } id clean with
  | none =>
    left
    simp
  | some p =>
    right
    cases p with
    | mk nodes' newid =>
      cases vhosts with
      | nil => simp [inc_version_node]
      | cons first rest =>
        simp only []
        split
        · simp [inc_version_node]
        · rw [config_vhost_loop_version]
          simp [inc_version_node]

theorem config_worker_c2 (ora : Reconciler) (now : Int) (mess : nodemess_t)
    (vhosts : List cluster_host) (s : MState) (node? : Option nodeinfo_t)
    (hids : ∀ n ∈ s.nodes, ¬ n.mess.id = -1) :
    graphOf ((config_worker ora now mess vhosts s node?).1) = graphOf s ∨
    ((config_worker ora now mess vhosts s node?).1).version =
      (s.version + 1) % 2 ^ 64 := by
  simp only [config_worker]
  by_cases hw : (ora.getid mess).getD (-1) = -1
  · simp only [hw, beq_self_eq_true, Bool.not_true, Bool.false_eq_true, if_false]
    cases hbp : find_node_byhostport s.nodes mess.Host mess.Port with
    | some w =>
      have hwid : ¬ w.mess.id = -1 := hids w (List.mem_of_find?_eq_some hbp)
      dsimp only
      cases hrem : w.mess.JVMRoute == "REMOVED" with
      | true =>
        simp only [hrem, if_true]
        right
        refine config_insert_version_of_row now mess vhosts _ w.mess.id true 0 hwid ?_
        rw [update_node_row_any_id]
        · exact byhostport_some_any hbp
        · intro n
          rfl
      | false =>
        simp only [hrem, Bool.false_eq_true, if_false]
        exact config_insert_c2_removed0 now mess vhosts s w.mess.id true
    | none =>
      dsimp only
      cases hfid : ora.free_id s.maxnode with
      | some fid => exact config_insert_c2_removed0 now mess vhosts s fid true
      | none => exact config_insert_c2_removed0 now mess vhosts s (-1) true
  · have hw' : (((ora.getid mess).getD (-1)) == -1) = false := by
      simpa using hw
    simp only [hw', Bool.not_false, if_true]
    cases node? with
    | some node =>
      dsimp only
      cases hnid : node.mess.id == (ora.getid mess).getD (-1) with
      | true =>
        simp only [hnid, if_true]
        exact config_insert_c2_removed0 now mess vhosts s _ true
      | false =>
        simp only [hnid, Bool.false_eq_true, if_false]
        exact config_insert_c2_removed0 now mess vhosts s _ false
    | none =>
      dsimp only
      cases hrd : read_node_id s.nodes ((ora.getid mess).getD (-1)) with
      | some workernode =>
        dsimp only
        cases hrem : workernode.mess.JVMRoute == "REMOVED" with
        | true =>
          simp only [hrem, if_true]
          right
          refine config_insert_version_of_row now mess vhosts _
            ((ora.getid mess).getD (-1)) false _ hw ?_
          rw [update_node_row_any_id]
          · exact read_node_id_some_any hrd
          · intro n
            rfl
        | false =>
          simp only [hrem, Bool.false_eq_true, if_false]
          split
          · left
            rfl
          · right
            exact config_insert_version_of_row now mess vhosts s _ false _ hw
              (read_node_id_some_any hrd)
      | none =>
        dsimp only
        exact config_insert_c2_removed0 now mess vhosts s _ false

theorem process_config_body_c2 (ora : Reconciler) (now : Int) (bal : balancerinfo_t)
    (mess : nodemess_t) (vhosts : List cluster_host) (s : MState)
    (hids : ∀ n ∈ s.nodes, ¬ n.mess.id = -1) :
    graphOf ((process_config_body ora now bal mess vhosts s).1) = graphOf s ∨
    ((process_config_body ora now bal mess vhosts s).1).version =
      (s.version + 1) % 2 ^ 64 := by
  simp only [process_config_body]
  cases hbal : insert_update_balancer s.balancers s.maxhost bal with
  | none => left; rfl
  | some bals =>
    dsimp only
    cases hrd : read_node_route s.nodes mess.JVMRoute with
    | some node =>
      dsimp only
      cases hsame : is_same_node node.mess mess with
      | false =>
        simp only [hsame, Bool.false_eq_true, if_false]
        right
        rfl
      | true =>
        simp only [hsame, if_true]
        cases hscan : is_same_worker_existing s.nodes mess with
        | true => simp only [hscan, if_true]; left; rfl
        | false =>
          simp only [hscan, Bool.false_eq_true, if_false]
          exact config_worker_c2 ora now mess vhosts { s with balancers := bals }
            (some node) hids
    | none =>
      dsimp only
      cases hscan : is_same_worker_existing s.nodes mess with
      | true => simp only [hscan, if_true]; left; rfl
      | false =>
        simp only [hscan, Bool.false_eq_true, if_false]
        exact config_worker_c2 ora now mess vhosts { s with balancers := bals }
          none hids

theorem process_config_c2 (mconf : mod_manager_config) (ora : Reconciler) (now : Int)
    (tokens : List String) (s : MState)
    (hids : ∀ n ∈ s.nodes, ¬ n.mess.id = -1) :
    graphOf ((process_config mconf ora now tokens s).1) = graphOf s ∨
    ((process_config mconf ora now tokens s).1).version =
      (s.version + 1) % 2 ^ 64 := by
  simp only [process_config]
  cases hp : config_parse_loop tokens (process_config_balancer_defaults mconf)
      (process_config_node_defaults mconf) [{ host := none, context := none }] with
  | error e => left; rfl
  | ok t =>
    obtain ⟨bal, mess, vhosts⟩ := t
    dsimp only
    cases hc : process_config_checks mconf mess with
    | error e => left; rfl
    | ok mess2 => exact process_config_body_c2 ora now bal mess2 vhosts s hids

theorem process_appl_body_c2 (status : Int) (global : Bool) (route : String)
    (al ctx : Option String) (s : MState) :
    (process_appl_body status global route al ctx s).1 = s ∨
    ((process_appl_body status global route al ctx s).1).version =
      (s.version + 1) % 2 ^ 64 := by
  simp only [process_appl_body]
  cases hrd : read_node_route s.nodes route with
  | none =>
    left
    dsimp only
    split <;> rfl
  | some node =>
    dsimp only
    cases hrem : node.mess.remove == 0 with
    | false =>
      simp only [hrem, Bool.not_false, if_true]
      left
      split <;> rfl
    | true =>
      simp only [hrem, Bool.not_true, Bool.false_eq_true, if_false]
      right
      split
      · rw [process_node_cmd_version, inc_version_node_version]
      · rw [appl_context_scope_version, inc_version_node_version]

theorem process_appl_cmd_c2 (status : Int) (global : Bool) (tokens : List String)
    (s : MState) :
    (process_appl_cmd status global tokens s).1 = s ∨
    ((process_appl_cmd status global tokens s).1).version =
      (s.version + 1) % 2 ^ 64 := by
  simp only [process_appl_cmd]
  cases hp : appl_parse_loop tokens "" none none with
  | error e => left; rfl
  | ok t =>
    obtain ⟨route, al, ctx⟩ := t
    dsimp only
    split
    · left; rfl
    · split
      · left; rfl
      · split
        · left; rfl
        · exact process_appl_body_c2 status global route al ctx s

theorem process_status_state (tokens : List String) (s : MState) :
    (process_status tokens s).1 = s := by
  simp only [process_status]
  cases hp : status_parse_loop tokens none with
  | error e => rfl
  | ok route =>
    dsimp only
    cases read_node_route s.nodes (route.getD "") <;> rfl

theorem mcmp_dispatch_c2 (mconf : mod_manager_config) (ora : Reconciler) (now : Int)
    (method : String) (global : Bool) (tokens : List String) (s : MState)
    (hids : ∀ n ∈ s.nodes, ¬ n.mess.id = -1) :
    graphOf ((mcmp_dispatch mconf ora now method global tokens s).1) = graphOf s ∨
    ((mcmp_dispatch mconf ora now method global tokens s).1).version =
      (s.version + 1) % 2 ^ 64 := by
  have happl : ∀ (st : Int),
      graphOf ((process_appl_cmd st global tokens s).1) = graphOf s ∨
      ((process_appl_cmd st global tokens s).1).version = (s.version + 1) % 2 ^ 64 := by
    intro st
    rcases process_appl_cmd_c2 st global tokens s with h | h
    · left; rw [h]
    · right; exact h
  simp only [mcmp_dispatch]
  split
  · exact process_config_c2 mconf ora now tokens s hids
  · split
    · exact happl ENABLED
    · split
      · exact happl DISABLED
      · split
        · exact happl STOPPED
        · split
          · exact happl REMOVE
          · split
            · left; rw [process_status_state]
            · split
              · left; rfl
              · split
                · left; rfl
                · split
                  · left; rfl
                  · split
                    · left; rfl
                    · left; rfl

/-- Claim C2: if an MCMP command changes the node/host/context graph, the
version counter observed after it is (version + 1) mod 2^64 — one bump per
mutating command, committed before the node lock is released — and is
strictly greater than the version before whenever the 64-bit counter does
not wrap.  The side condition is the slotmem invariant that stored rows
carry their (non-negative) slot ids. -/
theorem mcmp_graph_change_bumps_version (mconf : mod_manager_config)
    (ora : Reconciler) (now : Int) (method : String) (global : Bool)
    (tokens : List String) (s : MState)
    (hids : ∀ n ∈ s.nodes, ¬ n.mess.id = -1)
    (hchange : graphOf ((mcmp_dispatch mconf ora now method global tokens s).1) ≠
      graphOf s) :
    ((mcmp_dispatch mconf ora now method global tokens s).1).version =
      (s.version + 1) % 2 ^ 64 ∧
    (s.version + 1 < 2 ^ 64 →
      s.version < ((mcmp_dispatch mconf ora now method global tokens s).1).version) := by
  rcases mcmp_dispatch_c2 mconf ora now method global tokens s hids with h | h
  · exact absurd h hchange
  · refine ⟨h, fun hlt => ?_⟩
    rw [h, Nat.mod_eq_of_lt hlt]
    omega

/-- Witness for claim C2 at a concrete input: a fresh CONFIG of route nodeB
at a new endpoint against stateA changes the graph and moves the version
from 5 to 6. -/
theorem mcmp_graph_change_bumps_version_witness :
    (∀ n ∈ stateA.nodes, ¬ n.mess.id = -1) ∧
    graphOf ((mcmp_dispatch mconf_default ora_none 0 "CONFIG" false
      ["JVMRoute", "nodeB", "Host", "10.0.0.9", "Port", "9009"] stateA).1) ≠
      graphOf stateA ∧
    (((mcmp_dispatch mconf_default ora_none 0 "CONFIG" false
      ["JVMRoute", "nodeB", "Host", "10.0.0.9", "Port", "9009"] stateA).1).version =
      (stateA.version + 1) % 2 ^ 64 ∧
     (stateA.version + 1 < 2 ^ 64 →
      stateA.version < ((mcmp_dispatch mconf_default ora_none 0 "CONFIG" false
        ["JVMRoute", "nodeB", "Host", "10.0.0.9", "Port", "9009"] stateA).1).version)) :=
  ⟨by decide, by decide,
    mcmp_graph_change_bumps_version mconf_default ora_none 0 "CONFIG" false
      ["JVMRoute", "nodeB", "Host", "10.0.0.9", "Port", "9009"] stateA
      (by decide) (by decide)⟩

/- Lemmas for claim C5 (amended): the transactional bodies never produce a
SYNTAX error, so every SYNTAX error is raised before the registry is
touched. -/

theorem config_vhost_loop_no_syntax_error (vhosts : List cluster_host) (s : MState)
    (id vid : Int) (m : String) :
    ¬ (config_vhost_loop s id vid vhosts).2 = MCResult.err TYPESYNTAX m := by
  induction vhosts generalizing s vid with
  | nil => intro h; exact absurd h (by simp [config_vhost_loop])
  | cons ph rest ih =>
    simp only [config_vhost_loop]
    split
    · intro h
      simp [TYPESYNTAX] at h
    · split
      · intro h
        simp [TYPESYNTAX] at h
      · exact ih _ _

theorem config_insert_no_syntax_error (now : Int) (mess : nodemess_t)
    (vhosts : List cluster_host) (s : MState) (id : Int) (clean : Bool)
    (removed : Int) (m : String) :
    ¬ (config_insert now mess vhosts s id clean removed).2 = MCResult.err TYPESYNTAX m := by
  simp only [config_insert]
  cases insert_update_node s.nodes s.maxnode { mess := mess, updatetime := now } id clean with
  | none =>
    intro h
    simp [TYPESYNTAX, TYPEMEM] at h
  | some p =>
    cases p with
    | mk nodes' newid =>
      cases vhosts with
      | nil => intro h; simp at h
      | cons first rest =>
        dsimp only
        split
        · intro h; simp at h
        · exact config_vhost_loop_no_syntax_error _ _ _ _ m

theorem config_worker_no_syntax_error (ora : Reconciler) (now : Int) (mess : nodemess_t)
    (vhosts : List cluster_host) (s : MState) (node? : Option nodeinfo_t) (m : String) :
    ¬ (config_worker ora now mess vhosts s node?).2 = MCResult.err TYPESYNTAX m := by
  simp only [config_worker]
  split
  · cases node? with
    | some node =>
      dsimp only
      split
      · exact config_insert_no_syntax_error _ _ _ _ _ _ _ m
      · exact config_insert_no_syntax_error _ _ _ _ _ _ _ m
    | none =>
      dsimp only
      cases read_node_id s.nodes ((ora.getid mess).getD (-1)) with
      | some workernode =>
        dsimp only
        split
        · exact config_insert_no_syntax_error _ _ _ _ _ _ _ m
        · split
          · intro h
            simp [TYPESYNTAX, TYPEMEM] at h
          · exact config_insert_no_syntax_error _ _ _ _ _ _ _ m
      | none => exact config_insert_no_syntax_error _ _ _ _ _ _ _ m
  · cases find_node_byhostport s.nodes mess.Host mess.Port with
    | some w =>
      dsimp only
      split
      · exact config_insert_no_syntax_error _ _ _ _ _ _ _ m
      · exact config_insert_no_syntax_error _ _ _ _ _ _ _ m
    | none =>
      dsimp only
      cases ora.free_id s.maxnode with
      | some fid => exact config_insert_no_syntax_error _ _ _ _ _ _ _ m
      | none => exact config_insert_no_syntax_error _ _ _ _ _ _ _ m

theorem process_config_body_no_syntax_error (ora : Reconciler) (now : Int)
    (bal : balancerinfo_t) (mess : nodemess_t) (vhosts : List cluster_host)
    (s : MState) (m : String) :
    ¬ (process_config_body ora now bal mess vhosts s).2 = MCResult.err TYPESYNTAX m := by
  simp only [process_config_body]
  cases insert_update_balancer s.balancers s.maxhost bal with
  | none =>
    intro h
    simp [TYPESYNTAX, TYPEMEM] at h
  | some bals =>
    dsimp only
    cases read_node_route s.nodes mess.JVMRoute with
    | some node =>
      dsimp only
      split
      · split
        · intro h
          simp [TYPESYNTAX, TYPEMEM] at h
        · exact config_worker_no_syntax_error _ _ _ _ _ _ m
      · intro h
        simp [TYPESYNTAX, TYPEMEM] at h
    | none =>
      dsimp only
      split
      · intro h
        simp [TYPESYNTAX, TYPEMEM] at h
      · exact config_worker_no_syntax_error _ _ _ _ _ _ m

theorem process_config_syntax_unchanged (mconf : mod_manager_config) (ora : Reconciler)
    (now : Int) (tokens : List String) (s : MState) (m : String)
    (h : (process_config mconf ora now tokens s).2 = MCResult.err TYPESYNTAX m) :
    (process_config mconf ora now tokens s).1 = s := by
  revert h
  simp only [process_config]
  cases config_parse_loop tokens (process_config_balancer_defaults mconf)
      (process_config_node_defaults mconf) [{ host := none, context := none }] with
  | error e => intro _; rfl
  | ok t =>
    obtain ⟨bal, mess, vhosts⟩ := t
    dsimp only
    cases process_config_checks mconf mess with
    | error e => intro _; rfl
    | ok mess2 =>
      intro h
      exact absurd h (process_config_body_no_syntax_error ora now bal mess2 vhosts s m)

theorem appl_with_host_no_syntax_error (status : Int) (ctx : Option String)
    (node : nodeinfo_t) (host : hostinfo_t) (s : MState) (m : String) :
    ¬ (appl_with_host status ctx node host s).2 = MCResult.err TYPESYNTAX m := by
  simp only [appl_with_host]
  split
  · intro h
    simp [TYPESYNTAX, TYPEMEM] at h
  · split
    · split
      · intro h; simp at h
      · intro h; simp at h
    · intro h; simp at h

theorem appl_context_scope_no_syntax_error (status : Int) (al ctx : Option String)
    (node : nodeinfo_t) (s : MState) (m : String) :
    ¬ (appl_context_scope status al ctx node s).2 = MCResult.err TYPESYNTAX m := by
  simp only [appl_context_scope]
  split
  · exact appl_with_host_no_syntax_error _ _ _ _ _ m
  · split
    · intro h; simp at h
    · split
      · intro h
        simp [TYPESYNTAX, TYPEMEM] at h
      · split
        · intro h
          simp [TYPESYNTAX, TYPEMEM] at h
        · exact appl_with_host_no_syntax_error _ _ _ _ _ m

theorem process_appl_body_no_syntax_error (status : Int) (global : Bool) (route : String)
    (al ctx : Option String) (s : MState) (m : String) :
    ¬ (process_appl_body status global route al ctx s).2 = MCResult.err TYPESYNTAX m := by
  simp only [process_appl_body]
  cases read_node_route s.nodes route with
  | none =>
    dsimp only
    split
    · intro h; simp at h
    · intro h
      simp [TYPESYNTAX, TYPEMEM] at h
  | some node =>
    dsimp only
    split
    · split
      · intro h; simp at h
      · intro h
        simp [TYPESYNTAX, TYPEMEM] at h
    · split
      · intro h; simp at h
      · exact appl_context_scope_no_syntax_error _ _ _ _ _ m

theorem process_appl_cmd_syntax_unchanged (status : Int) (global : Bool)
    (tokens : List String) (s : MState) (m : String)
    (h : (process_appl_cmd status global tokens s).2 = MCResult.err TYPESYNTAX m) :
    (process_appl_cmd status global tokens s).1 = s := by
  revert h
  simp only [process_appl_cmd]
  cases appl_parse_loop tokens "" none none with
  | error e => intro _; rfl
  | ok t =>
    obtain ⟨route, al, ctx⟩ := t
    dsimp only
    split
    · intro _; rfl
    · split
      · intro _; rfl
      · split
        · intro _; rfl
        · intro h
          exact absurd h (process_appl_body_no_syntax_error status global route al ctx s m)

/-- Claim C5 (amended): every MCMP request that fails with a SYNTAX error
leaves the whole registry — all four tables and the version counter —
exactly as it was; SYNTAX validation happens before any mutation. -/
theorem syntax_error_leaves_registry_unchanged (mconf : mod_manager_config)
    (ora : Reconciler) (now : Int) (method uri body : String) (s : MState) (m : String)
    (h : (manager_handler mconf ora now method uri body s).2 = MCResult.err TYPESYNTAX m) :
    (manager_handler mconf ora now method uri body s).1 = s := by
  revert h
  simp only [manager_handler]
  cases process_buff body with
  | none => intro _; rfl
  | some tokens =>
    dsimp only
    simp only [mcmp_dispatch]
    split
    · exact process_config_syntax_unchanged mconf ora now tokens s m
    · split
      · exact process_appl_cmd_syntax_unchanged ENABLED _ tokens s m
      · split
        · exact process_appl_cmd_syntax_unchanged DISABLED _ tokens s m
        · split
          · exact process_appl_cmd_syntax_unchanged STOPPED _ tokens s m
          · split
            · exact process_appl_cmd_syntax_unchanged REMOVE _ tokens s m
            · split
              · intro _
                exact process_status_state tokens s
              · split
                · intro _; rfl
                · split
                  · intro _; rfl
                  · split
                    · intro _; rfl
                    · split
                      · intro _; rfl
                      · intro _; rfl

/-- Witness for the amended claim C5 at a concrete input: a CONFIG without
JVMRoute fails with the SYNTAX error SROUBAD and leaves stateA unchanged. -/
theorem syntax_error_leaves_registry_unchanged_witness :
    (manager_handler mconf_default ora_none 0 "CONFIG" "/" "Host=somewhere" stateA).2 =
      MCResult.err TYPESYNTAX SROUBAD ∧
    (manager_handler mconf_default ora_none 0 "CONFIG" "/" "Host=somewhere" stateA).1 =
      stateA :=
  ⟨by decide,
    syntax_error_leaves_registry_unchanged mconf_default ora_none 0 "CONFIG" "/"
      "Host=somewhere" stateA SROUBAD (by decide)⟩


/-- Claim C6: a CONFIG carrying a new JVMRoute whose Host/Port match a
tombstoned row (removed flag set, JVMRoute already rewritten to REMOVED)
when the reconciler locates no proxy worker reuses that row's slot: the
command succeeds, the resulting node row keeps the slot id and carries the
new JVMRoute with the removed flag and remove-check counter cleared (the
incoming message has remove = 0 and num_remove_check = 0, as
process_config_node_defaults guarantees), the version is bumped, and the
host and context tables are untouched by a CONFIG without Alias/Context. -/
theorem config_slot_reuse_rehydrates_tombstone (ora : Reconciler) (now : Int)
    (bal : balancerinfo_t) (mess : nodemess_t) (s : MState)
    (bals : List balancerinfo_t) (w : nodeinfo_t)
    (hbal : insert_update_balancer s.balancers s.maxhost bal = some bals)
    (hfresh : read_node_route s.nodes mess.JVMRoute = none)
    (hscan : is_same_worker_existing s.nodes mess = false)
    (hgetid : ora.getid mess = none)
    (hbp : find_node_byhostport s.nodes mess.Host mess.Port = some w)
    (htomb : w.mess.JVMRoute = "REMOVED")
    (hrm : ¬ w.mess.remove = 0)
    (hwid : ¬ w.mess.id = -1)
    (hmess_rm : mess.remove = 0)
    (hmess_nrc : mess.num_remove_check = 0) :
    (process_config_body ora now bal mess [{ host := none, context := none }] s).2 =
      MCResult.ok ∧
    slot_row mess w.mess.id now ∈
      ((process_config_body ora now bal mess [{ host := none, context := none }] s).1).nodes ∧
    (slot_row mess w.mess.id now).mess.id = w.mess.id ∧
    (slot_row mess w.mess.id now).mess.JVMRoute = mess.JVMRoute ∧
    (slot_row mess w.mess.id now).mess.remove = 0 ∧
    (slot_row mess w.mess.id now).mess.num_remove_check = 0 ∧
    ((process_config_body ora now bal mess [{ host := none, context := none }] s).1).hosts =
      s.hosts ∧
    ((process_config_body ora now bal mess [{ host := none, context := none }] s).1).contexts =
      s.contexts ∧
    ((process_config_body ora now bal mess [{ host := none, context := none }] s).1).version =
      (s.version + 1) % 2 ^ 64 := by
  have htomb' : (w.mess.JVMRoute == "REMOVED") = true := by simp [htomb]
  have hany : ((update_node_row s.nodes w.mess.id (rehydrate_tombstone mess.JVMRoute)).any
      (fun n => n.mess.id == w.mess.id)) = true := by
    rw [update_node_row_any_id]
    · exact byhostport_some_any hbp
    · intro n
      rfl
  have hbody : process_config_body ora now bal mess [{ host := none, context := none }] s =
      (inc_version_node
        { s with
          balancers := bals
          nodes := (update_node_row
            (update_node_row s.nodes w.mess.id (rehydrate_tombstone mess.JVMRoute))
            w.mess.id (fun _ => slot_row mess w.mess.id now)) },
       MCResult.ok) := by
    simp only [process_config_body, hbal, hfresh, hscan, Bool.false_eq_true, if_false,
      config_worker, hgetid, Option.getD_none, beq_self_eq_true, Bool.not_true, hbp,
      htomb', if_true, config_insert]
    rw [insert_update_node_row_exists _ _ _ _ _ hwid hany]
    simp [slot_row]
  rw [hbody]
  refine ⟨rfl, ?_, rfl, rfl, hmess_rm, hmess_nrc, rfl, rfl, rfl⟩
  have hw_mem : w ∈ s.nodes := List.mem_of_find?_eq_some hbp
  have h1 : rehydrate_tombstone mess.JVMRoute w ∈
      update_node_row s.nodes w.mess.id (rehydrate_tombstone mess.JVMRoute) := by
    have hmap := List.mem_map_of_mem
      (fun n => if n.mess.id == w.mess.id then rehydrate_tombstone mess.JVMRoute n else n)
      hw_mem
    rw [update_node_row]
    simpa using hmap
  have h2 := List.mem_map_of_mem
    (fun n => if n.mess.id == w.mess.id then slot_row mess w.mess.id now else n) h1
  have he : ((rehydrate_tombstone mess.JVMRoute w).mess.id == w.mess.id) = true := by
    simp [rehydrate_tombstone]
  show slot_row mess w.mess.id now ∈
    update_node_row (update_node_row s.nodes w.mess.id (rehydrate_tombstone mess.JVMRoute))
      w.mess.id (fun _ => slot_row mess w.mess.id now)
  rw [update_node_row]
  simpa [he] using h2

/-- Witness for claim C6 at a concrete input: a CONFIG of the fresh route
nodeC at 10.0.0.5:8009 rehydrates the tombstoned slot 2 of stateTomb. -/
theorem config_slot_reuse_rehydrates_tombstone_witness :
    insert_update_balancer stateTomb.balancers stateTomb.maxhost
      (process_config_balancer_defaults mconf_default) = some stateTomb.balancers ∧
    read_node_route stateTomb.nodes messC.JVMRoute = none ∧
    is_same_worker_existing stateTomb.nodes messC = false ∧
    find_node_byhostport stateTomb.nodes messC.Host messC.Port = some nodeTomb ∧
    nodeTomb.mess.JVMRoute = "REMOVED" ∧ ¬ nodeTomb.mess.remove = 0 ∧
    ((process_config_body ora_none 900 (process_config_balancer_defaults mconf_default)
        messC [{ host := none, context := none }] stateTomb).2 = MCResult.ok ∧
     slot_row messC nodeTomb.mess.id 900 ∈
       ((process_config_body ora_none 900 (process_config_balancer_defaults mconf_default)
         messC [{ host := none, context := none }] stateTomb).1).nodes ∧
     (slot_row messC nodeTomb.mess.id 900).mess.id = nodeTomb.mess.id ∧
     (slot_row messC nodeTomb.mess.id 900).mess.JVMRoute = messC.JVMRoute ∧
     (slot_row messC nodeTomb.mess.id 900).mess.remove = 0 ∧
     (slot_row messC nodeTomb.mess.id 900).mess.num_remove_check = 0 ∧
     ((process_config_body ora_none 900 (process_config_balancer_defaults mconf_default)
       messC [{ host := none, context := none }] stateTomb).1).hosts = stateTomb.hosts ∧
     ((process_config_body ora_none 900 (process_config_balancer_defaults mconf_default)
       messC [{ host := none, context := none }] stateTomb).1).contexts = stateTomb.contexts ∧
     ((process_config_body ora_none 900 (process_config_balancer_defaults mconf_default)
       messC [{ host := none, context := none }] stateTomb).1).version =
       (stateTomb.version + 1) % 2 ^ 64) :=
  ⟨by decide, by decide, by decide, by decide, by decide, by decide,
    config_slot_reuse_rehydrates_tombstone ora_none 900
      (process_config_balancer_defaults mconf_default) messC stateTomb
      stateTomb.balancers nodeTomb (by decide) (by decide) (by decide) rfl
      (by decide) (by decide) (by decide) (by decide) rfl rfl⟩

/- Lemmas for claim C7 (amended): which tokens decodeenc rejects. -/

theorem hex_escape_follows_short (rest : List Char)
    (h : ∀ (a b : Char) (t : List Char), ¬ rest = a :: b :: t) :
    hex_escape_follows rest = false := by
  cases rest with
  | nil => rfl
  | cons x t =>
    cases t with
    | nil => rfl
    | cons y t2 => exact absurd rfl (h x y t2)

theorem decode_all_cons_neg (c : Char) (rest : List Char)
    (hg : ((c == '%') && hex_escape_follows rest) = false) :
    decode_all (c :: rest) = c :: decode_all rest := by
  cases rest with
  | nil => simp [decode_all, hex_escape_follows]
  | cons x t =>
    cases t with
    | nil => simp [decode_all, hex_escape_follows]
    | cons y t2 =>
      simp only [decode_all]
      rw [if_neg (by simpa using hg)]

theorem decode_token_cons_neg (c : Char) (rest : List Char)
    (hg : ((c == '%') && hex_escape_follows rest) = false) :
    decode_token (c :: rest) =
      (if bad_decode_char c then none
       else (decode_token rest).map (fun t => c :: t)) := by
  cases rest with
  | nil => simp [decode_token, hex_escape_follows]
  | cons x t =>
    cases t with
    | nil => simp [decode_token, hex_escape_follows]
    | cons y t2 =>
      simp only [decode_token]
      rw [if_neg (by simpa using hg)]

theorem decode_token_eq (l : List Char) :
    decode_token l =
      (if (decode_all l).any bad_decode_char then none else some (decode_all l)) := by
  induction l using decode_token.induct with
  | case1 => simp [decode_token, decode_all]
  | case2 c a b tail ch hch hguard =>
    have hg : c = '%' ∧ hex_escape_follows (a :: b :: tail) = true := by
      simpa using hguard
    have hch2 : bad_decode_char (mod_manager_hex2c a b) = true := hch
    have hda : decode_all (c :: a :: b :: tail) = mod_manager_hex2c a b :: decode_all tail := by
      simp [decode_all, hg.1, hg.2]
    have hdt : decode_token (c :: a :: b :: tail) = none := by
      simp [decode_token, hg.1, hg.2, hch2]
    rw [hdt, hda]
    simp [hch2]
  | case3 c a b tail ch hch hguard ih =>
    have hg : c = '%' ∧ hex_escape_follows (a :: b :: tail) = true := by
      simpa using hguard
    have hch2 : bad_decode_char (mod_manager_hex2c a b) = false := by
      simpa using hch
    have hda : decode_all (c :: a :: b :: tail) = mod_manager_hex2c a b :: decode_all tail := by
      simp [decode_all, hg.1, hg.2]
    have hdt : decode_token (c :: a :: b :: tail) =
        (decode_token tail).map (fun t => mod_manager_hex2c a b :: t) := by
      simp [decode_token, hg.1, hg.2, hch2]
    rw [hdt, hda, ih]
    by_cases h : ((decode_all tail).any bad_decode_char) = true
    · simp [h]
    · simp [h, hch2]
  | case4 c rest hguard hnm =>
    exfalso
    cases rest with
    | nil => simp [hex_escape_follows] at hguard
    | cons x t =>
      cases t with
      | nil => simp [hex_escape_follows] at hguard
      | cons y t2 => exact hnm x y t2 rfl
  | case5 c rest hguard hbad =>
    have hg : ((c == '%') && hex_escape_follows rest) = false := by
      simpa using hguard
    rw [decode_token_cons_neg c rest hg, decode_all_cons_neg c rest hg]
    simp [hbad]
  | case6 c rest hguard hbad ih =>
    have hg : ((c == '%') && hex_escape_follows rest) = false := by
      simpa using hguard
    have hbad2 : bad_decode_char c = false := by simpa using hbad
    rw [decode_token_cons_neg c rest hg, decode_all_cons_neg c rest hg, ih]
    by_cases h : ((decode_all rest).any bad_decode_char) = true
    · simp [h, hbad2]
    · simp [h, hbad2]

theorem decodeenc_none_of_bad (tokens : List String)
    (hne : ∀ t ∈ tokens, ¬ t = "")
    (hbad : ∃ t ∈ tokens, ((decode_all t.data).any bad_decode_char) = true) :
    decodeenc tokens = none := by
  induction tokens with
  | nil =>
    rcases hbad with ⟨t, ht, _⟩
    exact absurd ht (List.not_mem_nil t)
  | cons t ts ih =>
    rw [decodeenc]
    have hte : (t == "") = false := by
      simpa using hne t (List.mem_cons_self t ts)
    simp only [hte, Bool.false_eq_true, if_false]
    rcases hbad with ⟨u, hu, hub⟩
    rcases List.mem_cons.mp hu with rfl | hu2
    · rw [decode_token_eq, if_pos hub]
    · cases hdt : decode_token t.data with
      | none => rfl
      | some d =>
        dsimp only
        rw [ih (fun x hx => hne x (List.mem_cons_of_mem t hx)) ⟨u, hu2, hub⟩]
        rfl

/-- Claim C7 (amended): for every MCMP request whose body splits into
tokens that are all non-empty (an empty token makes decodeenc stop scanning
and accept the rest undecoded), if any token contains one of the forbidden
characters after percent-decoding, the request fails with the SYNTAX error
SMESPAR and the registry, the version counter included, is unchanged. -/
theorem bad_decode_rejected_syntax (mconf : mod_manager_config) (ora : Reconciler)
    (now : Int) (method uri body : String) (s : MState)
    (hne : ∀ t ∈ tokenize body, ¬ t = "")
    (hbad : ∃ t ∈ tokenize body, ((decode_all t.data).any bad_decode_char) = true) :
    manager_handler mconf ora now method uri body s =
      (s, MCResult.err TYPESYNTAX SMESPAR) := by
  have h : process_buff body = none := by
    rw [process_buff]
    exact decodeenc_none_of_bad (tokenize body) hne hbad
  simp [manager_handler, h]

/-- Witness for the amended claim C7 at a concrete input: the body a=%3C
(whose two tokens are non-empty and whose value decodes to the forbidden
character) fails with SYNTAX and leaves stateA unchanged. -/
theorem bad_decode_rejected_syntax_witness :
    (∀ t ∈ tokenize "a=%3C", ¬ t = "") ∧
    (∃ t ∈ tokenize "a=%3C", ((decode_all t.data).any bad_decode_char) = true) ∧
    manager_handler mconf_default ora_none 0 "CONFIG" "/" "a=%3C" stateA =
      (stateA, MCResult.err TYPESYNTAX SMESPAR) :=
  ⟨by decide, by decide,
    bad_decode_rejected_syntax mconf_default ora_none 0 "CONFIG" "/" "a=%3C" stateA
      (by decide) (by decide)⟩

/- Lemmas for claim C9 (amended): the alias handed to the body of an APP
command is the lower-cased image of the request's Alias value. -/

theorem char_toNat_ofNat_valid (n : Nat) (h : n.isValidChar) :
    (Char.ofNat n).toNat = n := by
  simp [Char.ofNat, h, Char.ofNatAux, Char.toNat, UInt32.toNat, BitVec.toNat_ofNatLt]

theorem char_le_iff_toNat (a b : Char) : a ≤ b ↔ a.toNat ≤ b.toNat := by
  rw [Char.le_def, UInt32.le_def, BitVec.le_def]
  rfl

theorem apr_tolower_idem (c : Char) : apr_tolower (apr_tolower c) = apr_tolower c := by
  unfold apr_tolower
  by_cases h : ('A' ≤ c && c ≤ 'Z') = true
  · simp only [h, if_true]
    rw [Bool.and_eq_true] at h
    have hge : (65 : Nat) ≤ c.toNat := by
      have h1 : 'A' ≤ c := of_decide_eq_true h.1
      have := (char_le_iff_toNat 'A' c).mp h1
      simpa using this
    have hle : c.toNat ≤ 90 := by
      have h2 : c ≤ 'Z' := of_decide_eq_true h.2
      have := (char_le_iff_toNat c 'Z').mp h2
      simpa using this
    have hvalid : (c.toNat + 32).isValidChar := Or.inl (by omega)
    have ht : (Char.ofNat (c.toNat + 32)).toNat = c.toNat + 32 :=
      char_toNat_ofNat_valid _ hvalid
    have h2 : ¬ (Char.ofNat (c.toNat + 32) ≤ 'Z') := by
      rw [char_le_iff_toNat, ht]
      have : ('Z' : Char).toNat = 90 := by decide
      omega
    simp [h2]
  · have h' : ('A' ≤ c && c ≤ 'Z') = false := by simpa using h
    simp only [h', if_false]
    simp [h']

theorem lowerStr_idem (s : String) : lowerStr (lowerStr s) = lowerStr s := by
  simp only [lowerStr]
  rw [List.map_map]
  congr 1
  exact List.map_congr_left (fun c _ => apr_tolower_idem c)

/-- Claim C9 (amended): the alias value handed by the token walk of an APP
command (ENABLE-APP, DISABLE-APP, STOP-APP, REMOVE-APP) to the locked body,
which stores it in and matches it against the host table, is already in
lower case — lower-casing it again changes nothing — because the walk
lower-cases the Alias value on entry.  CONFIG, by contrast, stores aliases
verbatim (see the C9 counterexample).  The accumulator hypothesis carries
the invariant for the initial alias value, trivially true at the real entry
point where it is none. -/
theorem appl_alias_lowercased :
    ∀ (tokens : List String) (route0 : String) (al0 ctx0 : Option String),
      (∀ a, al0 = some a → lowerStr a = a) →
      ∀ (route : String) (al ctx : Option String),
        appl_parse_loop tokens route0 al0 ctx0 = Except.ok (route, al, ctx) →
        ∀ a, al = some a → lowerStr a = a := by
  intro tokens route0 al0 ctx0
  induction tokens, route0, al0, ctx0 using appl_parse_loop.induct with
  | case1 r0 a0 c0 =>
    intro hinv route al ctx hok a ha
    rw [appl_parse_loop] at hok
    injection hok with hok
    injection hok with h1 hok
    injection hok with h2 h3
    exact hinv a (h2 ▸ ha)
  | case2 head x x1 x2 =>
    intro hinv route al ctx hok a ha
    rw [appl_parse_loop] at hok
    cases hok
  | case3 key val rest r0 a0 c0 hkey hlen =>
    intro hinv route al ctx hok a ha
    rw [appl_parse_loop] at hok
    simp only [hkey, if_true, if_pos hlen] at hok
    cases hok
  | case4 key val rest r0 a0 c0 hkey hlen ih =>
    intro hinv route al ctx hok a ha
    rw [appl_parse_loop] at hok
    simp only [hkey, if_true, if_neg hlen] at hok
    exact ih hinv route al ctx hok a ha
  | case5 key val rest r0 a0 c0 hkey halias hsome =>
    intro hinv route al ctx hok a ha
    rw [appl_parse_loop] at hok
    simp only [hkey, Bool.false_eq_true, if_false, halias, if_true, hsome] at hok
    cases hok
  | case6 key val rest r0 a0 c0 hkey halias hsome ih =>
    intro hinv route al ctx hok a ha
    rw [appl_parse_loop] at hok
    simp only [hkey, Bool.false_eq_true, if_false, halias, if_true] at hok
    have hsome2 : a0.isSome = false := by simpa using hsome
    simp only [hsome2, Bool.false_eq_true, if_false] at hok
    refine ih ?_ route al ctx hok a ha
    intro b hb
    injection hb with hb
    rw [← hb]
    exact lowerStr_idem val
  | case7 key val rest r0 a0 c0 hkey halias hctx hsome =>
    intro hinv route al ctx hok a ha
    rw [appl_parse_loop] at hok
    simp only [hkey, halias, Bool.false_eq_true, if_false, hctx, if_true, hsome] at hok
    cases hok
  | case8 key val rest r0 a0 c0 hkey halias hctx hsome ih =>
    intro hinv route al ctx hok a ha
    rw [appl_parse_loop] at hok
    simp only [hkey, halias, Bool.false_eq_true, if_false, hctx, if_true] at hok
    have hsome2 : c0.isSome = false := by simpa using hsome
    simp only [hsome2, Bool.false_eq_true, if_false] at hok
    exact ih hinv route al ctx hok a ha
  | case9 key val rest r0 a0 c0 hkey halias hctx ih =>
    intro hinv route al ctx hok a ha
    rw [appl_parse_loop] at hok
    simp only [hkey, halias, hctx, Bool.false_eq_true, if_false] at hok
    exact ih hinv route al ctx hok a ha

/-- Witness for the amended claim C9 at a concrete input: the walk of
JVMRoute=nodeA, Alias=EXAMPLE.Com, Context=/app yields the lower-cased
alias example.com, which lower-casing again leaves unchanged. -/
theorem appl_alias_lowercased_witness :
    appl_parse_loop ["JVMRoute", "nodeA", "Alias", "EXAMPLE.Com", "Context", "/app"]
      "" none none = Except.ok ("nodeA", some "example.com", some "/app") ∧
    lowerStr "example.com" = "example.com" :=
  ⟨rfl,
    appl_alias_lowercased
      ["JVMRoute", "nodeA", "Alias", "EXAMPLE.Com", "Context", "/app"] "" none none
      (fun a ha => by cases ha) "nodeA" (some "example.com") (some "/app")
      rfl "example.com" rfl⟩
